import Mathlib

/-!
A shallow embedding of the Aggregation & Matchup Engine of the BowlBot
repository (`src/sheets_handler.py`, class `ExcelHandler`), together with
proofs checking the natural-language specification against it.

Modelling conventions:
* A spreadsheet cell value is a `Cell`: Python `None` is `Cell.blank`,
  strings are `Cell.str`, `int`/`float` are collapsed into `Cell.num`
  over `ℚ` (exact arithmetic instead of IEEE floats; the engine only
  adds, divides and compares, where `ℚ` agrees with the intent of the
  code), and `bool` is `Cell.boolv`.
* A sheet row (row 2 .. max_row of a season sheet) is a `Row` holding the
  cells the engine reads: Team (col 2), Player (col 3), Season (col 4),
  Week (col 5), Game1..Game5 (cols 6-10), Average (col 11),
  Absent? (col 13), Substitute? (col 14), Opponent (col 15).
* The workbook/sheet-name resolution layer is outside the embedded engine:
  every function takes the rows of the already-located season sheet plus
  the parsed season number, mirroring the body of the Python method after
  the `season_sheet` lookup.
* Python code that can raise (`value.strip()` on a non-string truthy
  value, i.e. `AttributeError`) is embedded in `Except String`; code that
  cannot raise is embedded as a plain function.
* `float(...)` string parsing is modelled for optionally signed decimal
  literals (the shapes league spreadsheets contain); exotic accepted
  forms (exponents, "inf") parse to the default, which no claim relies on.
* `round(x, 2)` is modelled as decimal round-half-to-even (`pyRound2`);
  Python rounds the binary double nearest to `x`, which agrees except on
  ties invisible to the properties proved here.
-/

/-- Python cell values as delivered by openpyxl. -/
inductive Cell where
  | blank
  | str (s : String)
  | num (q : ℚ)
  | boolv (b : Bool)
deriving DecidableEq, Repr, Inhabited

/-- Numeric value of a list of decimal digit characters, if all are digits. -/
def digitsVal : List Char → Option ℕ
  | [] => some 0
  | c :: cs =>
    if c.isDigit then
      (digitsVal cs).map (fun v => v * 10 ^ cs.length + (c.toNat - '0'.toNat))
    else none

/-- Python `s.lower()` (ASCII case folding, as the data contains). -/
def pyLower (s : String) : String := String.mk (s.data.map Char.toLower)

/-- Python `s.upper()`. -/
def pyUpper (s : String) : String := String.mk (s.data.map Char.toUpper)

/-- Python `s.strip()`: drop whitespace from both ends. -/
def pyStrip (s : String) : String :=
  String.mk
    (((s.data.dropWhile Char.isWhitespace).reverse.dropWhile Char.isWhitespace).reverse)

/-- Models Python `float(s)` on optionally signed decimal literals:
leading/trailing whitespace is ignored, an optional sign, then digits with
an optional single decimal point (at least one digit overall). -/
def parseFloatQ : String → Option ℚ := fun s =>
  let t := (pyStrip s).data
  let (neg, body) :=
    match t with
    | '-' :: r => (true, r)
    | '+' :: r => (false, r)
    | r => (false, r)
  let intPart := body.takeWhile (·.isDigit)
  let rest := body.dropWhile (·.isDigit)
  let frac? : Option (List Char) :=
    match rest with
    | [] => some []
    | '.' :: fr => if fr.all (·.isDigit) then some fr else none
    | _ => none
  match frac? with
  | none => none
  | some fr =>
    if intPart.isEmpty ∧ fr.isEmpty then none
    else
      match digitsVal intPart, digitsVal fr with
      | some i, some f =>
        let mag : ℚ := (i : ℚ) + (f : ℚ) / (10 ^ fr.length : ℚ)
        some (if neg then -mag else mag)
      | _, _ => none

/-- Python `int(q)` on a float/int: truncation toward zero. -/
def truncQ (q : ℚ) : ℤ := if 0 ≤ q then ⌊q⌋ else ⌈q⌉

/-- `ExcelHandler._safe_float`. -/
def safeFloat (c : Cell) (d : ℚ) : ℚ :=
  match c with
  | Cell.blank => d
  | Cell.boolv b => if b then 1 else 0
  | Cell.num q => q
  | Cell.str s => (parseFloatQ s).getD d

/-- `ExcelHandler._safe_int` (strings go through `int(float(s))`). -/
def safeInt (c : Cell) (d : ℤ) : ℤ :=
  match c with
  | Cell.blank => d
  | Cell.boolv b => if b then 1 else 0
  | Cell.num q => truncQ q
  | Cell.str s => match parseFloatQ s with
    | some q => truncQ q
    | none => d

/-- `ExcelHandler._is_absent`. -/
def isAbsentCell (c : Cell) : Bool :=
  match c with
  | Cell.blank => false
  | Cell.boolv b => b
  | Cell.str s => pyUpper s = "Y" ∨ pyUpper s = "YES" ∨ pyUpper s = "TRUE" ∨ pyUpper s = "1"
  | Cell.num q => q ≠ 0

/-- `ExcelHandler._is_substitute` (same body as `_is_absent` in the source). -/
def isSubCell (c : Cell) : Bool :=
  match c with
  | Cell.blank => false
  | Cell.boolv b => b
  | Cell.str s => pyUpper s = "Y" ∨ pyUpper s = "YES" ∨ pyUpper s = "TRUE" ∨ pyUpper s = "1"
  | Cell.num q => q ≠ 0

/-- Python truthiness of a cell value. -/
def cellTruthy (c : Cell) : Bool :=
  match c with
  | Cell.blank => false
  | Cell.str s => s ≠ ""
  | Cell.num q => q ≠ 0
  | Cell.boolv b => b

/-- Python `cell == n` for an integer `n` (numbers compare by value,
`True`/`False` count as 1/0; strings and `None` never equal an int). -/
def cellEqInt (c : Cell) (n : ℤ) : Bool :=
  match c with
  | Cell.num q => q = (n : ℚ)
  | Cell.boolv b => (if b then (1 : ℤ) else 0) = n
  | _ => false

/-- Python `str(value)` restricted to what the engine needs (team and
opponent labels; numeric rendering of non-integers differs from CPython's
float repr, which no claim depends on). -/
def pyStr (c : Cell) : String :=
  match c with
  | Cell.blank => "None"
  | Cell.str s => s
  | Cell.boolv b => if b then "True" else "False"
  | Cell.num q => if q.den = 1 then toString q.num else toString q

/-- Python `value.strip()`: succeeds on strings, raises `AttributeError`
on every other (necessarily truthy-checked) value. -/
def cellStrip (c : Cell) : Except String String :=
  match c with
  | Cell.str s => Except.ok (pyStrip s)
  | _ => Except.error "AttributeError: object has no attribute strip"

/-- `startsWithL hay needle`: `needle` is a prefix of `hay` (char lists). -/
def startsWithL : List Char → List Char → Bool
  | _, [] => true
  | [], _ :: _ => false
  | h :: hs, n :: ns => h = n && startsWithL hs ns

/-- `pyInL hay needle`: Python `needle in hay` on char lists. -/
def pyInL : List Char → List Char → Bool
  | [], needle => needle.isEmpty
  | h :: hs, needle => startsWithL (h :: hs) needle || pyInL hs needle

/-- Python `needle in hay` for strings. -/
def pyIn (needle hay : String) : Bool := pyInL hay.toList needle.toList

/-- The Name Resolver matching rule used throughout the engine:
`a.lower() in b.lower() or b.lower() in a.lower()`. -/
def nameMatch (a b : String) : Bool :=
  pyIn (pyLower a) (pyLower b) || pyIn (pyLower b) (pyLower a)

/-- Round-half-to-even to an integer. -/
def roundHalfEven (q : ℚ) : ℤ :=
  let f := ⌊q⌋
  let r := q - (f : ℚ)
  if r < 1/2 then f
  else if 1/2 < r then f + 1
  else if f % 2 = 0 then f else f + 1

/-- Models Python `round(x, 2)`. -/
def pyRound2 (q : ℚ) : ℚ := ((roundHalfEven (q * 100) : ℤ) : ℚ) / 100

/-- One row of a season sheet, holding the cells the engine reads. -/
structure Row where
  team : Cell
  player : Cell
  season : Cell
  week : Cell
  g1 : Cell
  g2 : Cell
  g3 : Cell
  g4 : Cell
  g5 : Cell
  avgCell : Cell
  absentCell : Cell
  subCell : Cell
  oppCell : Cell
deriving DecidableEq, Repr, Inhabited

/-- The five game cells of a row, in slot order (columns 6-10). -/
def gamesList (r : Row) : List Cell := [r.g1, r.g2, r.g3, r.g4, r.g5]

/-- The per-cell step of the game-collection loop:
`if game_score is not None: g = safe_float(game_score); if g > 0: append g`. -/
def playedFn (c : Cell) : Option ℚ :=
  match c with
  | Cell.blank => none
  | c => let q := safeFloat c 0; if 0 < q then some q else none

/-- The played games of a list of game cells. -/
def playedCells (cs : List Cell) : List ℚ := cs.filterMap playedFn

/-- The played games of a row. -/
def playedGames (r : Row) : List ℚ := playedCells (gamesList r)

/-- Per-slot contribution of a row to a team's slot totals: the played
value at each slot, 0 at unplayed slots. -/
def slotContrib (r : Row) : List ℚ :=
  (gamesList r).map (fun c =>
    match c with
    | Cell.blank => 0
    | c => let q := safeFloat c 0; if 0 < q then q else 0)

/-- The `{1: 0, 2: 0, 3: 0, 4: 0, 5: 0}` slot-total dictionary. -/
def zeroSlots : List ℚ := [0, 0, 0, 0, 0]

/-- Slot-wise addition of slot totals. -/
def addSlots (a b : List ℚ) : List ℚ := List.zipWith (· + ·) a b

section AssocOps

variable {K : Type} {β : Type} [BEq K]

/-- Ordered-dictionary lookup (Python `d[k]` / `k in d`). -/
def alookup (l : List (K × β)) (k : K) : Option β :=
  (l.find? (fun p => p.1 == k)).map (·.2)

/-- Python `if k not in d: d[k] = v` — appends at the end, preserving
insertion order. -/
def aensure (l : List (K × β)) (k : K) (v : β) : List (K × β) :=
  if (alookup l k).isSome then l else l ++ [(k, v)]

/-- Python in-place mutation of an existing entry (`d[k] = f(d[k])`). -/
def aadjust (l : List (K × β)) (k : K) (f : β → β) : List (K × β) :=
  l.map (fun p => if p.1 == k then (p.1, f p.2) else p)

/-- Python `d[k] = v` (replace in place, or append when the key is new). -/
def aset (l : List (K × β)) (k : K) (v : β) : List (K × β) :=
  if (alookup l k).isSome then aadjust l k (fun _ => v) else l ++ [(k, v)]

end AssocOps

/-! ## `ExcelHandler.get_player_scores` (src/sheets_handler.py:737-897) -/

/-- One entry of a player's `"weeks"` list. -/
structure WeekEntry where
  week : ℤ
  games : List ℚ
  avg : ℚ
  absent : Bool
deriving DecidableEq, Repr

/-- The per-player accumulation record of `get_player_scores`. -/
structure PData where
  team : String
  scores : List ℚ
  absentCount : ℕ
  weeks : List WeekEntry
  highestGame : ℚ
  lowestGame : ℚ
deriving DecidableEq, Repr

/-- Fresh `player_data[player]` entry. -/
def psInit (team : String) : PData :=
  { team := team, scores := [], absentCount := 0, weeks := []
    highestGame := 0, lowestGame := 300 }

/-- Sequential `if game_score > highest: highest = game_score`. -/
def foldMaxQ (l : List ℚ) (init : ℚ) : ℚ :=
  l.foldl (fun h g => if h < g then g else h) init

/-- Sequential `if game_score < lowest: lowest = game_score`. -/
def foldMinQ (l : List ℚ) (init : ℚ) : ℚ :=
  l.foldl (fun h g => if g < h then g else h) init

/-- Python `max` over a nonempty list (0 for the never-reached empty case). -/
def listMaxQ : List ℚ → ℚ
  | [] => 0
  | h :: t => foldMaxQ t h

/-- Python `min` over a nonempty list (0 for the never-reached empty case). -/
def listMinQ : List ℚ → ℚ
  | [] => 0
  | h :: t => foldMinQ t h

/-- The `week_avg` computed for one row (column 11, falling back to the
mean of the row's played games). -/
def rowWeekAvg (r : Row) : ℚ :=
  if r.avgCell ≠ Cell.blank then safeFloat r.avgCell 0
  else if playedGames r ≠ [] then
    (playedGames r).sum / ((playedGames r).length : ℚ)
  else 0

/-- The week filter applied by `get_player_scores` and `get_team_scores`:
`if week is not None: if safe_int(row_week, 0) != week: continue`. -/
def weekSkip (wf : Option ℤ) (r : Row) : Bool :=
  match wf with
  | some w => decide (safeInt r.week 0 ≠ w)
  | none => false

/-- One iteration of the row scan of `get_player_scores`, building
`player_data` (an insertion-ordered dictionary). -/
def psStep (s : ℤ) (wf : Option ℤ) (acc : List (String × PData)) (r : Row) :
    List (String × PData) :=
  if ¬ cellEqInt r.season s then acc
  else if weekSkip wf r then acc
  else
    match r.player with
    | Cell.str ps =>
      if ps = "" then acc
      else
        let player := pyStrip ps
        let team := if cellTruthy r.team then pyStrip (pyStr r.team) else "Unknown"
        let acc1 := aensure acc player (psInit team)
        let wgames := playedGames r
        let wavg := rowWeekAvg r
        let isAb := isAbsentCell r.absentCell
        aadjust acc1 player (fun d =>
          let d1 :=
            if isAb then { d with absentCount := d.absentCount + 1 }
            else
              { d with scores := d.scores ++ wgames
                       highestGame := foldMaxQ wgames d.highestGame
                       lowestGame := foldMinQ wgames d.lowestGame }
          { d1 with weeks := d1.weeks ++ [⟨safeInt r.week 0, wgames, wavg, isAb⟩] })
    | _ => acc

/-- Season-level statistics reported for one player.  The source reports
`round(std_dev, 2)` where `std_dev = variance ** 0.5`; the square root is
irrational, so the embedding carries the exact radicand `stdDevSq`
(population variance) instead. -/
structure PStats where
  team : String
  scores : List ℚ
  average : ℚ
  stdDevSq : ℚ
  weeksPlayed : ℤ
  weeksAbsent : ℕ
  highestGame : ℤ
  lowestGame : ℤ
deriving DecidableEq, Repr

/-- The finalisation of one `player_data` entry into `result_data`. -/
def mkPStats (d : PData) : PStats :=
  let scores := d.scores
  let avg : ℚ := if scores = [] then 0 else scores.sum / (scores.length : ℚ)
  let variance : ℚ :=
    if 1 < scores.length then
      (scores.map (fun x => (x - avg) ^ 2)).sum / (scores.length : ℚ)
    else 0
  let h0 := d.highestGame
  let l0 := d.lowestGame
  let highest : ℚ := if scores ≠ [] then (if h0 = 0 then listMaxQ scores else h0) else 0
  let lowest : ℚ := if scores ≠ [] then (if l0 = 300 then listMinQ scores else l0) else 0
  { team := d.team, scores := scores
    average := pyRound2 avg
    stdDevSq := variance
    weeksPlayed := (d.weeks.length : ℤ) - (d.absentCount : ℤ)
    weeksAbsent := d.absentCount
    highestGame := truncQ highest
    lowestGame := truncQ lowest }

/-- Result of `get_player_scores`. -/
inductive PSOut where
  | err (msg : String)
  | weekView (player team : String) (games : List ℚ) (avg : ℚ) (absent : Bool)
  | single (player : String) (stats : PStats)
  | allStats (l : List (String × PStats))
deriving DecidableEq, Repr

/-- One iteration of the result loop of `get_player_scores`
(`Sum.inr` models an early `return`). -/
def psFinStep (pn : Option String) (wk : Option ℤ)
    (st : Sum (List (String × PStats)) PSOut) (kv : String × PData) :
    Sum (List (String × PStats)) PSOut :=
  match st with
  | Sum.inr out => Sum.inr out
  | Sum.inl res =>
    let player := kv.1
    let d := kv.2
    let pnTruthy := match pn with | some q => decide (q ≠ "") | none => false
    if wk.isSome && pnTruthy then
      let q := pn.getD ""
      if nameMatch q player then
        match d.weeks.find? (fun e => e.week == wk.getD 0) with
        | some e => Sum.inr (PSOut.weekView player d.team e.games e.avg e.absent)
        | none => Sum.inr (PSOut.err ("No data found for " ++ player ++ " in Week " ++
            toString (wk.getD 0)))
      else Sum.inl res
    else
      match pn with
      | none => Sum.inl (res ++ [(player, mkPStats d)])
      | some q =>
        if nameMatch q player then Sum.inr (PSOut.single player (mkPStats d))
        else Sum.inl res

/-- `ExcelHandler.get_player_scores`, given the rows of the located season
sheet and the parsed season number. -/
def getPlayerScores (rs : List Row) (s : ℤ) (pn : Option String) (wk : Option ℤ) :
    PSOut :=
  let pdata := rs.foldl (psStep s wk) []
  match pdata.foldl (psFinStep pn wk) (Sum.inl []) with
  | Sum.inr out => out
  | Sum.inl res =>
    match pn with
    | some q =>
      PSOut.err (if wk.isSome then
          "Player '" ++ q ++ "' not found in Week " ++ toString (wk.getD 0)
        else "Player '" ++ q ++ "' not found")
    | none => PSOut.allStats res

/-! ## `ExcelHandler.get_league_stats` (src/sheets_handler.py:616-735) -/

/-- `player_averages[player]` accumulation value. -/
structure LPA where
  team : String
  games : List ℚ
  totalPins : ℚ
deriving DecidableEq, Repr

/-- The collections built by the row scan of `get_league_stats`. -/
structure LState where
  pa : List (String × LPA)
  pwt : List (String × String × ℤ × ℚ × ℕ)
  twt : List (String × ℤ × ℚ)
  ig : List (Cell × String × ℤ × ℚ)
deriving DecidableEq, Repr

/-- One iteration of the row scan of `get_league_stats`. -/
def lgStep (s : ℤ) (st : LState) (r : Row) : LState :=
  if ¬ cellEqInt r.season s then st
  else
    match r.team with
    | Cell.str t =>
      if t = "" then st
      else
        let team := pyStrip t
        if isSubCell r.subCell then st
        else
          let wgames := playedGames r
          let st1 := { st with
            ig := st.ig ++ wgames.map (fun g => (r.player, team, safeInt r.week 0, g)) }
          let wtotal := wgames.sum
          let st2 :=
            if ¬ isAbsentCell r.absentCell then
              match r.player with
              | Cell.str ps =>
                if ps = "" then st1
                else
                  let player := pyStrip ps
                  let st' := { st1 with
                    pa := aadjust (aensure st1.pa player ⟨team, [], 0⟩) player
                      (fun d => { d with games := d.games ++ wgames
                                         totalPins := d.totalPins + wtotal }) }
                  if 0 < wtotal then
                    { st' with pwt := st'.pwt ++
                        [(player, team, safeInt r.week 0, wtotal, wgames.length)] }
                  else st'
              | _ => st1
            else st1
          if r.week ≠ Cell.blank then
            let w := safeInt r.week 0
            if 0 < w ∧ 0 < wtotal then
              { st2 with twt := st2.twt ++ [(team, w, wtotal)] }
            else st2
          else st2
    | _ => st

/-- One entry of the ranked `player_averages` list. -/
structure PAvgEntry where
  player : String
  team : String
  average : ℚ
  games : ℕ
deriving DecidableEq, Repr

/-- Result of `get_league_stats`. -/
structure LeagueOut where
  seasonNum : ℤ
  playerAverages : List PAvgEntry
  topPlayerWeeks : List (String × String × ℤ × ℚ × ℕ)
  topTeamTotals : List (String × ℤ × ℚ)
  topGames : List (Cell × String × ℤ × ℚ)
deriving DecidableEq, Repr

/-- `ExcelHandler.get_league_stats`, given the rows of the located season
sheet and the parsed season number.  `list.sort(reverse=True)` is stable,
matched here by `mergeSort` with a `≥` comparison on the sort key. -/
def getLeagueStats (rs : List Row) (s : ℤ) : LeagueOut :=
  let st := rs.foldl (lgStep s) ⟨[], [], [], []⟩
  let pal := st.pa.foldl (fun acc kv =>
      if kv.2.games ≠ [] then
        acc ++ [⟨kv.1, kv.2.team,
                 pyRound2 (kv.2.games.sum / (kv.2.games.length : ℚ)),
                 kv.2.games.length⟩]
      else acc) []
  let pal := pal.mergeSort (fun a b => b.average ≤ a.average)
  let tpw := (st.pwt.mergeSort (fun a b => b.2.2.2.1 ≤ a.2.2.2.1)).take 10
  let twd := st.twt.foldl (fun acc e =>
      aadjust (aensure acc (e.1, e.2.1) 0) (e.1, e.2.1) (· + e.2.2)) []
  let ttl := ((twd.map (fun kv => (kv.1.1, kv.1.2, kv.2))).mergeSort
      (fun a b => b.2.2 ≤ a.2.2)).take 5
  let tg := (st.ig.mergeSort (fun a b => b.2.2.2 ≤ a.2.2.2)).take 10
  ⟨s, pal, tpw, ttl, tg⟩

/-! ## `ExcelHandler.get_team_scores` (src/sheets_handler.py:116-450) -/

/-- One `weekly_totals[week]` entry: accumulated pins and the opponent
label (`str(opponent).strip() if opponent else None`) of the first row
seen for that team-week. -/
structure TWT where
  pins : ℚ
  oppName : Option String
deriving DecidableEq, Repr

/-- The per-team accumulation record of `get_team_scores` phase 1. -/
structure TDData where
  players : List (String × List ℚ)
  weeklyTotals : List (ℤ × TWT)
deriving DecidableEq, Repr

/-- One iteration of the first row scan of `get_team_scores`, building
`team_data`.  Note that the team's entry is created (`aensure`) before the
substitute flag is consulted, so a row flagged substitute still registers
its team name. -/
def tsStep (s : ℤ) (wf : Option ℤ) (acc : List (String × TDData)) (r : Row) :
    List (String × TDData) :=
  if ¬ cellEqInt r.season s then acc
  else if weekSkip wf r then acc
  else
    match r.team with
    | Cell.str t =>
      if t = "" then acc
      else
        let team := pyStrip t
        let isSub := isSubCell r.subCell
        let isAb := isAbsentCell r.absentCell
        let acc1 := aensure acc team ⟨[], []⟩
        let wgames := playedGames r
        let wtotal := wgames.sum
        let acc2 :=
          if ¬ isSub ∧ ¬ isAb then
            match r.player with
            | Cell.str ps =>
              if ps = "" then acc1
              else
                let player := pyStrip ps
                aadjust acc1 team (fun td =>
                  { td with players :=
                      aadjust (aensure td.players player []) player (· ++ wgames) })
            | _ => acc1
          else acc1
        if ¬ isSub ∧ r.week ≠ Cell.blank then
          let wn := safeInt r.week 0
          let initTWT : TWT :=
            { pins := 0
              oppName := if cellTruthy r.oppCell then some (pyStrip (pyStr r.oppCell)) else none }
          if 0 < wn then
            aadjust acc2 team (fun td =>
              { td with weeklyTotals :=
                  (aadjust (aensure td.weeklyTotals wn initTWT) wn
                    (fun w => { w with pins := w.pins + wtotal })) })
          else acc2
        else acc2
    | _ => acc

/-- Wins/losses/ties triple. -/
structure WLT where
  wins : ℕ
  losses : ℕ
  ties : ℕ
deriving DecidableEq, Repr

/-- The slot-by-slot comparison loop shared by all three matchup sites:
slots where both totals are 0 are skipped; otherwise `>` is a win, `<` a
loss, `=` a tie. -/
def compareSlots (own opp : List ℚ) : WLT :=
  (own.zip opp).foldl (fun a p =>
    if 0 < p.1 ∨ 0 < p.2 then
      if p.2 < p.1 then { a with wins := a.wins + 1 }
      else if p.1 < p.2 then { a with losses := a.losses + 1 }
      else { a with ties := a.ties + 1 }
    else a) ⟨0, 0, 0⟩

/-- The `pins_against += opp_total` accumulation of the season path, which
runs only at compared slots. -/
def gatedOppPins (own opp : List ℚ) : ℚ :=
  (own.zip opp).foldl (fun a p => if 0 < p.1 ∨ 0 < p.2 then a + p.2 else a) 0

/-- Accumulate one week's comparison into the season tallies. -/
def cmpAccum (acc : WLT × ℚ) (own opp : List ℚ) : WLT × ℚ :=
  let w := compareSlots own opp
  (⟨acc.1.wins + w.wins, acc.1.losses + w.losses, acc.1.ties + w.ties⟩,
   acc.2 + gatedOppPins own opp)

/-- One iteration of the `team_weekly_game_totals` scan of the season
path.  This scan calls `row_team.strip()` without an `isinstance` check,
so a truthy non-string team cell raises `AttributeError`. -/
def twgtStep (s : ℤ) (team : String) (acc : List (ℤ × List ℚ)) (r : Row) :
    Except String (List (ℤ × List ℚ)) :=
  if ¬ cellEqInt r.season s then pure acc
  else if ¬ cellTruthy r.team then pure acc
  else do
    let rt ← cellStrip r.team
    if rt ≠ team then pure acc
    else if isSubCell r.subCell then pure acc
    else
      let wn := safeInt r.week 0
      if 0 < wn then
        pure (aadjust (aensure acc wn zeroSlots) wn (fun t => addSlots t (slotContrib r)))
      else pure acc

/-- One iteration of the season path's opponent-games scan (also a bare
`row_team.strip()`). -/
def oppScanStep (s : ℤ) (opp : String) (w : ℤ) (acc : List ℚ) (r : Row) :
    Except String (List ℚ) :=
  if ¬ cellEqInt r.season s then pure acc
  else if ¬ cellTruthy r.team then pure acc
  else do
    let rt ← cellStrip r.team
    if rt ≠ opp then pure acc
    else if safeInt r.week 0 ≠ w then pure acc
    else if isSubCell r.subCell then pure acc
    else pure (addSlots acc (slotContrib r))

/-- One week of the season path's matchup loop.  The comparison runs for
every week whose stored opponent label is truthy, whether or not the label
resolves to a known team: an unresolved opponent is compared as all-zero
slot totals. -/
def tsCmpEntry (rs : List Row) (s : ℤ) (teamKeys : List String)
    (twgt : List (ℤ × List ℚ)) (acc : WLT × ℚ) (e : ℤ × TWT) :
    Except String (WLT × ℚ) :=
  match alookup twgt e.1 with
  | none => pure acc
  | some tg =>
    match e.2.oppName with
    | none => pure acc
    | some opn =>
      if opn = "" then pure acc
      else
        match teamKeys.find? (fun k => nameMatch opn k) with
        | some oppKey => do
            let og ← rs.foldlM (oppScanStep s oppKey e.1) zeroSlots
            pure (cmpAccum acc tg og)
        | none => pure (cmpAccum acc tg zeroSlots)

/-- Season-level statistics reported for one team. -/
structure TeamResult where
  wins : ℕ
  losses : ℕ
  ties : ℕ
  pinsFor : ℤ
  pinsAgainst : ℤ
  avgPerGame : ℚ
  players : List (String × ℚ)
deriving DecidableEq, Repr

/-- The `week_data` object of the week-detail branch. -/
structure WeekData where
  opponent : Option String
  players : List (String × List ℚ)
  total : ℚ
  wins : ℕ
  losses : ℕ
  ties : ℕ
deriving DecidableEq, Repr

/-- Result of `get_team_scores`. -/
inductive TSOut where
  | err (msg : String)
  | weekData (team : String) (wd : WeekData)
  | single (team : String) (res : TeamResult)
  | allTeams (l : List (String × TeamResult))
deriving DecidableEq, Repr

/-- One iteration of the week-detail branch's row scan, building
`players_games`, `week_total` and the (compacted, not slot-aligned)
`team_weekly_game_totals`.  `r_player.strip()` runs on any truthy player
cell, so a truthy non-string player cell raises `AttributeError`. -/
def wdStep (s : ℤ) (team : String) (w : ℤ)
    (acc : List (String × List ℚ) × ℚ × List ℚ) (r : Row) :
    Except String (List (String × List ℚ) × ℚ × List ℚ) :=
  if ¬ cellEqInt r.season s then pure acc
  else if ¬ cellTruthy r.team then pure acc
  else do
    let rt ← cellStrip r.team
    if rt ≠ team then pure acc
    else if safeInt r.week 0 ≠ w then pure acc
    else if isSubCell r.subCell then pure acc
    else do
      let player ← if cellTruthy r.player then cellStrip r.player else pure "Unknown"
      let games := playedGames r
      if games ≠ [] then
        pure (aset acc.1 player games, acc.2.1 + games.sum,
              addSlots acc.2.2 (games ++ List.replicate (5 - games.length) 0))
      else pure acc

/-- One iteration of the week-detail branch's opponent scan (this one uses
`str(row_team).strip()`, which cannot raise). -/
def wdOppStep (s : ℤ) (opp : String) (w : ℤ) (acc : List ℚ) (r : Row) : List ℚ :=
  if ¬ cellEqInt r.season s then acc
  else if ¬ cellTruthy r.team then acc
  else if pyStrip (pyStr r.team) ≠ opp then acc
  else if safeInt r.week 0 ≠ w then acc
  else if isSubCell r.subCell then acc
  else addSlots acc (slotContrib r)

/-- The accumulation at the bottom of the per-team loop (`results[team] = …`
or the early `return` for a matching queried team). -/
def tsAccum (tn : Option String) (team : String) (tr : TeamResult)
    (res : List (String × TeamResult)) : Sum (List (String × TeamResult)) TSOut :=
  match tn with
  | none => Sum.inl (res ++ [(team, tr)])
  | some tq =>
    if nameMatch tq team then Sum.inr (TSOut.single team tr) else Sum.inl res

/-- One iteration of the per-team result loop of `get_team_scores`
(`Sum.inr` models an early `return`). -/
def tsTeamStep (rs : List Row) (s : ℤ) (tn : Option String) (wp : Option ℤ)
    (teamData : List (String × TDData))
    (st : Sum (List (String × TeamResult)) TSOut) (kv : String × TDData) :
    Except String (Sum (List (String × TeamResult)) TSOut) :=
  match st with
  | Sum.inr out => pure (Sum.inr out)
  | Sum.inl res => do
    let team := kv.1
    let data := kv.2
    let pAvgs := data.players.foldl (fun a p =>
        if p.2 ≠ [] then a ++ [p.2.sum / (p.2.length : ℚ)] else a) []
    let avgPerGame : ℚ := if pAvgs ≠ [] then pAvgs.sum / (pAvgs.length : ℚ) else 0
    let totalPins : ℚ := data.weeklyTotals.foldl (fun a w => a + w.2.pins) 0
    let twgt ← rs.foldlM (twgtStep s team) []
    let cmp ← data.weeklyTotals.foldlM
        (tsCmpEntry rs s (teamData.map (·.1)) twgt) (⟨0, 0, 0⟩, 0)
    let pdict := data.players.foldl (fun a p =>
        if p.2 ≠ [] then a ++ [(p.1, pyRound2 (p.2.sum / (p.2.length : ℚ)))] else a) []
    let teamResult : TeamResult :=
      ⟨cmp.1.wins, cmp.1.losses, cmp.1.ties, truncQ totalPins, truncQ cmp.2,
       pyRound2 avgPerGame, pdict⟩
    let wpTnTruthy := match wp, tn with
      | some _, some tq => decide (tq ≠ "")
      | _, _ => false
    if wpTnTruthy then
      let w := wp.getD 0
      let tq := tn.getD ""
      if nameMatch tq team then
        match alookup data.weeklyTotals w with
        | some winfo => do
            let wd ← rs.foldlM (wdStep s team w) ([], 0, zeroSlots)
            let wlt : WLT :=
              match winfo.oppName with
              | none => ⟨0, 0, 0⟩
              | some o =>
                if o ≠ "" ∧ o ≠ "Unknown" then
                  match teamData.find? (fun p => nameMatch o p.1) with
                  | some oppKv =>
                    compareSlots wd.2.2 (rs.foldl (wdOppStep s oppKv.1 w) zeroSlots)
                  | none => ⟨0, 0, 0⟩
                else ⟨0, 0, 0⟩
            pure (Sum.inr (TSOut.weekData team
              ⟨winfo.oppName, wd.1, wd.2.1, wlt.wins, wlt.losses, wlt.ties⟩))
        | none =>
          pure (Sum.inr (TSOut.err
            ("No data found for " ++ team ++ " in Week " ++ toString w)))
      else pure (tsAccum tn team teamResult res)
    else pure (tsAccum tn team teamResult res)

/-- `ExcelHandler.get_team_scores`, given the rows of the located season
sheet and the parsed season number. -/
def getTeamScores (rs : List Row) (s : ℤ) (tn : Option String) (wp : Option ℤ) :
    Except String TSOut := do
  let teamData := rs.foldl (tsStep s wp) []
  let out ← teamData.foldlM (tsTeamStep rs s tn wp teamData) (Sum.inl [])
  match out with
  | Sum.inr o => pure o
  | Sum.inl res =>
    match tn with
    | some tq =>
      pure (TSOut.err (if wp.isSome then
          "Team '" ++ tq ++ "' not found in Week " ++ toString (wp.getD 0)
        else "Team '" ++ tq ++ "' not found"))
    | none => pure (TSOut.allTeams res)

/-! ## `ExcelHandler.get_team_weekly_summary` (src/sheets_handler.py:452-614) -/

/-- One `weekly_data[week]` entry.  The source later adds the keys
`avg`, `pins_for`, `pins_against` to the same dictionary; they are fields
here, initialised to 0. -/
structure WSInfo where
  opponent : String
  gameTotals : List ℚ
  oppGameTotals : List ℚ
  wins : ℕ
  losses : ℕ
  ties : ℕ
  avg : ℚ
  pinsFor : ℤ
  pinsAgainst : ℤ
deriving DecidableEq, Repr

/-- The `team_found` search: first row (of any season) whose team cell is
a truthy string matching the query bidirectionally. -/
def wsTeamFound (rs : List Row) (tq : String) : Option String :=
  rs.findSome? (fun r =>
    match r.team with
    | Cell.str t => if t ≠ "" ∧ nameMatch tq (pyStrip t) then some (pyStrip t) else none
    | _ => none)

/-- One iteration of the `all_teams` scan (bare `row_team.strip()` after a
truthiness check: truthy non-strings raise `AttributeError`). -/
def wsAllStep (s : ℤ) (acc : List (String × List (ℤ × List ℚ))) (r : Row) :
    Except String (List (String × List (ℤ × List ℚ))) :=
  if ¬ cellEqInt r.season s then pure acc
  else if ¬ cellTruthy r.team then pure acc
  else if isSubCell r.subCell then pure acc
  else do
    let team ← cellStrip r.team
    let w := safeInt r.week 0
    if 0 < w then
      pure (aadjust (aensure acc team []) team (fun m =>
        (aadjust (aensure m w zeroSlots) w (fun t => addSlots t (slotContrib r)))))
    else pure acc

/-- One iteration of the scan that builds the queried team's
`weekly_data` (opponent label defaults to `"Unknown"` here, unlike
`get_team_scores` which stores `None`). -/
def wsWeekStep (s : ℤ) (teamFound : String) (acc : List (ℤ × WSInfo)) (r : Row) :
    Except String (List (ℤ × WSInfo)) :=
  if ¬ cellEqInt r.season s then pure acc
  else if ¬ cellTruthy r.team then pure acc
  else do
    let rt ← cellStrip r.team
    if rt ≠ teamFound then pure acc
    else if isSubCell r.subCell then pure acc
    else
      let w := safeInt r.week 0
      if 0 < w then
        let initInfo : WSInfo :=
          { opponent := if cellTruthy r.oppCell then pyStrip (pyStr r.oppCell) else "Unknown"
            gameTotals := zeroSlots, oppGameTotals := zeroSlots
            wins := 0, losses := 0, ties := 0, avg := 0, pinsFor := 0, pinsAgainst := 0 }
        pure (aadjust (aensure acc w initInfo) w (fun i =>
          { i with gameTotals := addSlots i.gameTotals (slotContrib r) }))
      else pure acc

/-- The matchup-resolution step for one weekly entry: the opponent label
must match a key of `all_teams` AND that team must have data for this very
week, otherwise the entry keeps zero wins/losses/ties. -/
def wsResolve (allTeams : List (String × List (ℤ × List ℚ))) (w : ℤ) (e : WSInfo) :
    WSInfo :=
  match allTeams.find? (fun p => nameMatch e.opponent p.1) with
  | some p =>
    match alookup p.2 w with
    | some og =>
      let c := compareSlots e.gameTotals og
      { e with oppGameTotals := og, wins := c.wins, losses := c.losses, ties := c.ties }
    | none => e
  | none => e

/-- One iteration of the `total_games` count (bare `row_team.strip()`
inside the guard, so truthy non-string team cells raise). -/
def wsCountStep (s : ℤ) (teamFound : String) (w : ℤ) (acc : ℕ) (r : Row) :
    Except String ℕ :=
  if ¬ cellEqInt r.season s then pure acc
  else if ¬ cellTruthy r.team then pure acc
  else do
    let rt ← cellStrip r.team
    if rt ≠ teamFound then pure acc
    else if safeInt r.week 0 ≠ w then pure acc
    else if isSubCell r.subCell then pure acc
    else pure (acc + (playedGames r).length)

/-- The final per-entry pass computing `avg`, `pins_for`, `pins_against`. -/
def wsFinalizeEntry (rs : List Row) (s : ℤ) (teamFound : String)
    (we : ℤ × WSInfo) : Except String (ℤ × WSInfo) := do
  let e := we.2
  let teamTotal := e.gameTotals.sum
  let oppTotal := e.oppGameTotals.sum
  let totalGames ← rs.foldlM (wsCountStep s teamFound we.1) 0
  let avg : ℚ := if 0 < totalGames then teamTotal / (totalGames : ℚ) else 0
  pure (we.1,
    { e with avg := avg, pinsFor := truncQ teamTotal, pinsAgainst := truncQ oppTotal })

/-- Result of `get_team_weekly_summary`. -/
inductive WSOut where
  | err (msg : String)
  | summary (team : String) (seasonNum : ℤ) (weeks : List (ℤ × WSInfo))
deriving DecidableEq, Repr

/-- `ExcelHandler.get_team_weekly_summary`, given the rows of the located
season sheet and the parsed season number. -/
def getTeamWeeklySummary (rs : List Row) (s : ℤ) (tq : String) :
    Except String WSOut :=
  match wsTeamFound rs tq with
  | none => pure (WSOut.err ("Team '" ++ tq ++ "' not found"))
  | some teamFound => do
    let allTeams ← rs.foldlM (wsAllStep s) []
    let wd ← rs.foldlM (wsWeekStep s teamFound) []
    let wd1 := wd.map (fun we => (we.1, wsResolve allTeams we.1 we.2))
    let wd2 ← wd1.mapM (wsFinalizeEntry rs s teamFound)
    pure (WSOut.summary teamFound s wd2)

/-! ## `ExcelHandler.add_score` (src/sheets_handler.py:899-959) -/

/-- The row-matching test of `add_score`: a truthy string player cell
containing the lower-cased query (one direction only), same season. -/
def addMatch (p : String) (s : ℤ) (r : Row) : Bool :=
  match r.player with
  | Cell.str ps => ps ≠ "" && pyIn (pyLower p) (pyLower ps) && cellEqInt r.season s
  | _ => false

/-- `game_value is None or game_value == ""` — the emptiness test of a
game slot in `add_score`. -/
def isEmptyCell (c : Cell) : Bool :=
  match c with
  | Cell.blank => true
  | Cell.str s => s = ""
  | _ => false

/-- Index (0-based) of the first empty game slot of a row, if any. -/
def firstEmptySlot (r : Row) : Option ℕ :=
  if isEmptyCell r.g1 then some 0
  else if isEmptyCell r.g2 then some 1
  else if isEmptyCell r.g3 then some 2
  else if isEmptyCell r.g4 then some 3
  else if isEmptyCell r.g5 then some 4
  else none

/-- Write a value into game slot `j` (0-based) of a row. -/
def setSlot (r : Row) (j : ℕ) (v : Cell) : Row :=
  match j with
  | 0 => { r with g1 := v }
  | 1 => { r with g2 := v }
  | 2 => { r with g3 := v }
  | 3 => { r with g4 := v }
  | _ => { r with g5 := v }

/-- The `week is None` search of `add_score`: index of the row picked by
`if week_num > max_week` with `max_week` starting at 0 (so rows whose week
is 0 or unparsable are never picked, and the first row of the maximal
week wins). -/
def latestTarget (p : String) (s : ℤ) (rs : List Row) : Option ℕ :=
  (rs.foldl (fun (st : ℤ × Option ℕ × ℕ) r =>
    if addMatch p s r then
      let wn := safeInt r.week 0
      if st.1 < wn then (wn, some st.2.2, st.2.2 + 1) else (st.1, st.2.1, st.2.2 + 1)
    else (st.1, st.2.1, st.2.2 + 1)) ((0 : ℤ), none, 0)).2.1

/-- The `week` given branch of `add_score`: the first row matching
player/season/week decides everything (`break` after its slot loop). -/
def addScoreWeekLoop (p : String) (score : ℤ) (s w : ℤ) : List Row → Bool × List Row
  | [] => (false, [])
  | r :: rest =>
    if addMatch p s r && (safeInt r.week 0 == w) then
      match firstEmptySlot r with
      | some j => (true, setSlot r j (Cell.num (score : ℚ)) :: rest)
      | none => (false, r :: rest)
    else
      let res := addScoreWeekLoop p score s w rest
      (res.1, r :: res.2)

/-- `ExcelHandler.add_score`, given the rows of the located season sheet
and the parsed season number; returns the success flag and the updated
record store (the source writes the cell and saves the workbook). -/
def addScore (rs : List Row) (p : String) (score : ℤ) (wk : Option ℤ) (s : ℤ) :
    Bool × List Row :=
  match wk with
  | none =>
    match latestTarget p s rs with
    | some i =>
      match rs[i]? with
      | some r =>
        match firstEmptySlot r with
        | some j => (true, rs.set i (setSlot r j (Cell.num (score : ℚ))))
        | none => (false, rs)
      | none => (false, rs)
    | none => (false, rs)
  | some w => addScoreWeekLoop p score s w rs

/-! ## Toolkit: ordered-dictionary lemmas -/

section AssocLemmas

set_option linter.unusedSectionVars false

variable {K : Type} {β : Type} [BEq K] [LawfulBEq K]

theorem alookup_nil (k : K) : alookup ([] : List (K × β)) k = none := rfl

theorem alookup_cons (p : K × β) (l : List (K × β)) (k : K) :
    alookup (p :: l) k = if p.1 == k then some p.2 else alookup l k := by
  simp only [alookup, List.find?]
  cases h : p.1 == k <;> simp [h]

theorem alookup_append (l l' : List (K × β)) (k : K) :
    alookup (l ++ l') k = (alookup l k).or (alookup l' k) := by
  induction l with
  | nil => simp [alookup_nil]
  | cons p t ih =>
    rw [List.cons_append, alookup_cons, alookup_cons]
    cases hp : p.1 == k
    · simp [ih]
    · simp

theorem alookup_singleton (k k' : K) (v : β) :
    alookup [(k, v)] k' = if k == k' then some v else none := by
  rw [alookup_cons]; rfl

theorem alookup_aensure_ne (l : List (K × β)) (k k' : K) (v : β)
    (h : (k == k') = false) :
    alookup (aensure l k v) k' = alookup l k' := by
  unfold aensure
  by_cases hs : ((alookup l k).isSome : Bool) = true
  · simp [hs]
  · simp only [hs, Bool.false_eq_true, if_neg, not_false_iff]
    rw [alookup_append, alookup_singleton, h]
    cases alookup l k' <;> rfl

theorem alookup_aensure_same (l : List (K × β)) (k : K) (v : β) :
    alookup (aensure l k v) k = some ((alookup l k).getD v) := by
  unfold aensure
  cases h : alookup l k with
  | some w => simp [h]
  | none =>
    rw [if_neg (by simp [h])]
    rw [alookup_append, alookup_singleton, h]
    simp

theorem aadjust_eq_map (l : List (K × β)) (k : K) (f : β → β) :
    aadjust l k f = l.map (fun p => (p.1, if p.1 == k then f p.2 else p.2)) := by
  unfold aadjust
  apply List.map_congr_left
  intro p _
  by_cases hp : (p.1 == k) = true <;> simp [hp]

theorem alookup_aadjust (l : List (K × β)) (k k' : K) (f : β → β) :
    alookup (aadjust l k f) k' =
      (alookup l k').map (fun v => if k == k' then f v else v) := by
  rw [aadjust_eq_map]
  induction l with
  | nil => rfl
  | cons p t ih =>
    rw [List.map_cons, alookup_cons, alookup_cons]
    by_cases hq : (p.1 == k') = true
    · have hpk : p.1 = k' := eq_of_beq hq
      subst hpk
      simp only [hq, if_pos]
      have hsymm : (p.1 == k) = (k == p.1) := by
        simp [beq_iff_eq, eq_comm]
      rw [hsymm]
      rfl
    · simp only [hq, Bool.false_eq_true, if_neg, not_false_iff]
      exact ih

theorem alookup_aadjust_same (l : List (K × β)) (k : K) (f : β → β) :
    alookup (aadjust l k f) k = (alookup l k).map f := by
  rw [alookup_aadjust]
  have : (k == k) = true := by simp
  simp [this]

theorem alookup_aadjust_ne (l : List (K × β)) (k k' : K) (f : β → β)
    (h : (k == k') = false) :
    alookup (aadjust l k f) k' = alookup l k' := by
  rw [alookup_aadjust, h]
  simp only [Bool.false_eq_true, if_neg, not_false_iff]
  cases alookup l k' <;> rfl

end AssocLemmas

section AssocLemmas2

set_option linter.unusedSectionVars false

variable {K : Type} {β : Type} [BEq K] [LawfulBEq K]

theorem alookup_aadjust_aensure_same (l : List (K × β)) (k : K) (d : β) (f : β → β) :
    alookup (aadjust (aensure l k d) k f) k = some (f ((alookup l k).getD d)) := by
  rw [alookup_aadjust_same, alookup_aensure_same]
  rfl

theorem alookup_aadjust_aensure_ne (l : List (K × β)) (k k' : K) (d : β) (f : β → β)
    (h : (k == k') = false) :
    alookup (aadjust (aensure l k d) k f) k' = alookup l k' := by
  rw [alookup_aadjust_ne _ _ _ _ h, alookup_aensure_ne _ _ _ _ h]

theorem alookup_mem (l : List (K × β)) (k : K) (v : β)
    (h : alookup l k = some v) : (k, v) ∈ l := by
  induction l with
  | nil => simp [alookup_nil] at h
  | cons p t ih =>
    rw [alookup_cons] at h
    by_cases hp : (p.1 == k) = true
    · rw [if_pos hp] at h
      have hk : p.1 = k := eq_of_beq hp
      have hv : p.2 = v := by simpa using h
      have hpe : p = (k, v) := by
        obtain ⟨p1, p2⟩ := p
        simp only at hk hv
        rw [hk, hv]
      rw [hpe]
      exact List.mem_cons_self _ _
    · rw [if_neg hp] at h
      exact List.mem_cons_of_mem _ (ih h)

/-- Keys of an insertion-ordered dictionary, in order. -/
def akeys (l : List (K × β)) : List K := l.map Prod.fst

theorem akeys_aadjust (l : List (K × β)) (k : K) (f : β → β) :
    akeys (aadjust l k f) = akeys l := by
  rw [aadjust_eq_map]
  simp [akeys]

theorem alookup_eq_none_of_not_mem_akeys (l : List (K × β)) (k : K)
    (h : k ∉ akeys l) : alookup l k = none := by
  induction l with
  | nil => rfl
  | cons p t ih =>
    rw [alookup_cons]
    have hp : (p.1 == k) = false := by
      refine beq_eq_false_iff_ne.mpr ?_
      intro he
      exact h (by simp [akeys, he.symm])
    rw [if_neg (by simp [hp])]
    exact ih (fun hm => h (by simp [akeys] at hm ⊢; exact Or.inr hm))

theorem akeys_aensure (l : List (K × β)) (k : K) (v : β) :
    akeys (aensure l k v) = if (alookup l k).isSome then akeys l else akeys l ++ [k] := by
  unfold aensure
  by_cases hs : (alookup l k).isSome = true
  · simp [hs]
  · simp only [hs, Bool.false_eq_true, if_neg, not_false_iff, akeys, List.map_append]
    rfl

theorem mem_akeys_isSome (l : List (K × β)) (k : K)
    (h : k ∈ akeys l) : (alookup l k).isSome = true := by
  induction l with
  | nil => simp [akeys] at h
  | cons p t ih =>
    rw [alookup_cons]
    by_cases hp : (p.1 == k) = true
    · simp [hp]
    · rw [if_neg (by simp [hp])]
      rw [akeys, List.map_cons] at h
      rcases List.mem_cons.mp h with he | ht
      · exact absurd (beq_iff_eq.mpr he.symm) (by simp [hp])
      · exact ih ht

theorem nodup_akeys_aensure (l : List (K × β)) (k : K) (v : β)
    (h : (akeys l).Nodup) : (akeys (aensure l k v)).Nodup := by
  rw [akeys_aensure]
  by_cases hs : (alookup l k).isSome = true
  · simp [hs, h]
  · simp only [hs, Bool.false_eq_true, if_neg, not_false_iff]
    have hk : k ∉ akeys l := fun hm => hs (mem_akeys_isSome l k hm)
    simp [List.nodup_append, h, hk]

theorem alookup_of_mem_nodup (l : List (K × β)) (k : K) (v : β)
    (hn : (akeys l).Nodup) (hm : (k, v) ∈ l) : alookup l k = some v := by
  induction l with
  | nil => cases hm
  | cons p t ih =>
    rw [alookup_cons]
    rcases List.mem_cons.mp hm with he | ht
    · rw [← he]
      simp
    · have hk : k ∈ akeys t := by
        simp only [akeys, List.mem_map]
        exact ⟨(k, v), ht, rfl⟩
      have hp : (p.1 == k) = false := by
        refine beq_eq_false_iff_ne.mpr ?_
        intro he
        rw [akeys, List.map_cons, List.nodup_cons] at hn
        exact hn.1 (he ▸ hk)
      rw [if_neg (by simp [hp])]
      exact ih (by rw [akeys, List.map_cons, List.nodup_cons] at hn; exact hn.2) ht

end AssocLemmas2

/-! ## Specification-side views of the player aggregation -/

/-- The player key under which `get_player_scores` files a row: the
trimmed player cell, provided it is a truthy string. -/
def playerKey (r : Row) : Option String :=
  match r.player with
  | Cell.str ps => if ps = "" then none else some (pyStrip ps)
  | _ => none

/-- `psRowFor s wf k r`: the row passes the season/week filter of
`get_player_scores` and belongs to player `k`. -/
def psRowFor (s : ℤ) (wf : Option ℤ) (k : String) (r : Row) : Bool :=
  cellEqInt r.season s && !(weekSkip wf r) && (playerKey r == some k)

/-- The games the specification calls *included* for a player: the played
games (numeric value strictly positive) of the player's non-absent rows,
in row order.  (`get_player_scores` never consults the substitute flag.) -/
def includedGames (rs : List Row) (s : ℤ) (wf : Option ℤ) (k : String) : List ℚ :=
  (rs.filter (fun r => psRowFor s wf k r && !isAbsentCell r.absentCell)).flatMap
    playedGames

/-- The score list filed under player `k`. -/
def scoresOf (l : List (String × PData)) (k : String) : List ℚ :=
  match alookup l k with
  | some d => d.scores
  | none => []

theorem psStep_scoresOf (s : ℤ) (wf : Option ℤ) (acc : List (String × PData))
    (r : Row) (k : String) :
    scoresOf (psStep s wf acc r) k =
      scoresOf acc k ++
        (if psRowFor s wf k r && !isAbsentCell r.absentCell then playedGames r
         else []) := by
  unfold psStep psRowFor playerKey
  by_cases h1 : (cellEqInt r.season s : Bool) = true
  · by_cases h2 : (weekSkip wf r : Bool) = true
    · rw [if_neg (by simp [h1]), if_pos h2]
      simp [h2]
    · rw [if_neg (by simp [h1]), if_neg (by simp [h2])]
      have h2f : (weekSkip wf r : Bool) = false := eq_false_of_ne_true h2
      cases hp : r.player with
      | str ps =>
        dsimp only
        by_cases hps : ps = ""
        · simp [h1, h2f, hps]
        · rw [if_neg hps]
          by_cases hk : (pyStrip ps == k) = true
          · have hkk : pyStrip ps = k := eq_of_beq hk
            unfold scoresOf
            rw [hkk, alookup_aadjust_same, alookup_aensure_same]
            simp only [hps, if_neg, not_false_iff, h1, h2f, Bool.not_false,
              Bool.true_and, hkk]
            have hsk : ((some k == some k) : Bool) = true := by simp
            rw [hsk]
            simp only [Bool.true_and]
            by_cases hab : (isAbsentCell r.absentCell : Bool) = true
            · simp only [hab, if_pos, Bool.not_true, Bool.and_false,
                Bool.false_eq_true, if_neg, not_false_iff, List.append_nil,
                Option.map_some]
              cases hacc : alookup acc k <;> simp [psInit, hacc, hab]
            · have habf := eq_false_of_ne_true hab
              simp only [habf, Bool.not_false, Bool.and_true, if_pos,
                Bool.false_eq_true, not_false_iff]
              cases hacc : alookup acc k <;> simp [psInit, hacc, habf]
          · have hkf : (pyStrip ps == k) = false := eq_false_of_ne_true hk
            unfold scoresOf
            rw [alookup_aadjust_ne _ _ _ _ hkf, alookup_aensure_ne _ _ _ _ hkf]
            have hopt : ((some (pyStrip ps) == some k) : Bool) = false := by
              simpa using hkf
            simp only [hps, if_neg, not_false_iff, hopt, Bool.and_false,
              Bool.false_and, Bool.false_eq_true, List.append_nil]
      | blank => simp [h1, h2f, hp]
      | num q => simp [h1, h2f, hp]
      | boolv b => simp [h1, h2f, hp]
  · have h1f := eq_false_of_ne_true h1
    rw [if_pos (by simp [h1f])]
    simp [h1f]

theorem psFold_scoresOf (s : ℤ) (wf : Option ℤ) (rs : List Row) :
    ∀ (acc : List (String × PData)) (k : String),
      scoresOf (rs.foldl (psStep s wf) acc) k =
        scoresOf acc k ++ includedGames rs s wf k := by
  induction rs with
  | nil => intro acc k; simp [includedGames]
  | cons r t ih =>
    intro acc k
    rw [List.foldl_cons, ih, psStep_scoresOf, List.append_assoc]
    congr 1
    unfold includedGames
    rw [List.filter_cons]
    by_cases hc : (psRowFor s wf k r && !isAbsentCell r.absentCell) = true
    · simp [hc]
    · simp [eq_false_of_ne_true hc]

theorem psFin_none (wk : Option ℤ) (pdata : List (String × PData)) :
    ∀ acc, pdata.foldl (psFinStep none wk) (Sum.inl acc)
      = Sum.inl (acc ++ pdata.map (fun kv => (kv.1, mkPStats kv.2))) := by
  induction pdata with
  | nil => intro acc; simp
  | cons kv t ih =>
    intro acc
    rw [List.foldl_cons]
    have hstep : psFinStep none wk (Sum.inl acc) kv
        = Sum.inl (acc ++ [(kv.1, mkPStats kv.2)]) := by
      unfold psFinStep
      simp
    rw [hstep, ih]
    simp

theorem getPlayerScores_none (rs : List Row) (s : ℤ) (wk : Option ℤ) :
    getPlayerScores rs s none wk =
      PSOut.allStats
        ((rs.foldl (psStep s wk) []).map (fun kv => (kv.1, mkPStats kv.2))) := by
  unfold getPlayerScores
  dsimp only
  rw [psFin_none]
  rfl

/-- A convenient concrete row builder for witnesses and counterexamples. -/
def sampleRow (team player : String) (season week : ℤ) (gs : List ℚ)
    (ab sub : Bool) (opp : Option String) : Row :=
  { team := Cell.str team, player := Cell.str player, season := Cell.num (season : ℚ)
    week := Cell.num (week : ℚ)
    g1 := match gs[0]? with | some q => Cell.num q | none => Cell.blank
    g2 := match gs[1]? with | some q => Cell.num q | none => Cell.blank
    g3 := match gs[2]? with | some q => Cell.num q | none => Cell.blank
    g4 := match gs[3]? with | some q => Cell.num q | none => Cell.blank
    g5 := match gs[4]? with | some q => Cell.num q | none => Cell.blank
    avgCell := Cell.blank
    absentCell := if ab then Cell.str "Y" else Cell.blank
    subCell := if sub then Cell.str "Y" else Cell.blank
    oppCell := match opp with | some o => Cell.str o | none => Cell.blank }

/-- **C3.** For every player with at least one included game in a season,
the reported average is exactly the sum of the included games divided by
their count (carried through the source's 2-decimal display rounding),
where the included games are exactly the played games (numeric value > 0)
of that player's non-absent rows; no game of a row flagged absent is ever
included. -/
theorem player_average_is_mean_of_included_games (rs : List Row) (s : ℤ)
    (k : String) (d : PData)
    (h : alookup (rs.foldl (psStep s none) []) k = some d)
    (hne : d.scores ≠ []) :
    d.scores = includedGames rs s none k ∧
    (mkPStats d).average =
      pyRound2 ((includedGames rs s none k).sum /
        ((includedGames rs s none k).length : ℚ)) ∧
    getPlayerScores rs s none none =
      PSOut.allStats
        ((rs.foldl (psStep s none) []).map (fun kv => (kv.1, mkPStats kv.2))) := by
  have hs : d.scores = includedGames rs s none k := by
    have hf := psFold_scoresOf s none rs [] k
    unfold scoresOf at hf
    rw [h] at hf
    simpa using hf
  refine ⟨hs, ?_, getPlayerScores_none rs s none⟩
  rw [← hs]
  unfold mkPStats
  simp [hne]

/-- Default `PData` used only to state concrete witnesses. -/
def pdDefault : PData := ⟨"", [], 0, [], 0, 300⟩

/-- Concrete record set for the C3 witness: one player, one absent row
whose games must be excluded, one ordinary row. -/
def sampleC3 : List Row :=
  [ sampleRow "Red" "Ann" 1 1 [180, 170] false false (some "Blue")
  , sampleRow "Red" "Ann" 1 2 [140, 150] true false (some "Blue") ]

/-- The aggregation record the C3 witness instantiates the theorem at. -/
def sampleC3d : PData :=
  (alookup (sampleC3.foldl (psStep 1 none) []) "Ann").getD pdDefault

theorem player_average_is_mean_of_included_games_witness :
    sampleC3d.scores = includedGames sampleC3 1 none "Ann" ∧
    (mkPStats sampleC3d).average =
      pyRound2 ((includedGames sampleC3 1 none "Ann").sum /
        ((includedGames sampleC3 1 none "Ann").length : ℚ)) ∧
    getPlayerScores sampleC3 1 none none =
      PSOut.allStats
        ((sampleC3.foldl (psStep 1 none) []).map (fun kv => (kv.1, mkPStats kv.2))) :=
  player_average_is_mean_of_included_games sampleC3 1 "Ann" sampleC3d
    (by with_unfolding_all decide) (by with_unfolding_all decide)

/-! ## C1: substitutes in outputs -/

/-- Decidable equality for `Except`, used to evaluate concrete runs. -/
instance {ε α : Type} [DecidableEq ε] [DecidableEq α] :
    DecidableEq (Except ε α) := fun a b =>
  match a, b with
  | Except.ok x, Except.ok y =>
    if h : x = y then isTrue (by rw [h]) else isFalse (by intro hc; cases hc; exact h rfl)
  | Except.error x, Except.error y =>
    if h : x = y then isTrue (by rw [h]) else isFalse (by intro hc; cases hc; exact h rfl)
  | Except.ok _, Except.error _ => isFalse (by intro hc; cases hc)
  | Except.error _, Except.ok _ => isFalse (by intro hc; cases hc)

theorem lgStep_sub (s : ℤ) (st : LState) (r : Row)
    (h : isSubCell r.subCell = true) : lgStep s st r = st := by
  unfold lgStep
  by_cases h1 : (cellEqInt r.season s : Bool) = true
  · cases hp : r.team with
    | str t =>
      by_cases ht : t = ""
      · simp [h1, ht]
      · simp [h1, ht, h]
    | blank => simp [h1]
    | num q => simp [h1]
    | boolv b => simp [h1]
  · simp [eq_false_of_ne_true h1]

theorem foldl_filter_id {α β : Type} (f : β → α → β) (p : α → Bool)
    (h : ∀ b a, p a = false → f b a = b) :
    ∀ (l : List α) (b : β), l.foldl f b = (l.filter p).foldl f b := by
  intro l
  induction l with
  | nil => simp
  | cons a t ih =>
    intro b
    rw [List.foldl_cons, List.filter_cons]
    by_cases hp : p a = true
    · simp only [hp, if_pos]
      rw [List.foldl_cons, ih]
    · rw [h b a (eq_false_of_ne_true hp)]
      simp only [eq_false_of_ne_true hp, Bool.false_eq_true, if_neg, not_false_iff]
      exact ih b

/-- **C1 (amended).**  Substitute rows contribute nothing to
`get_league_stats`: deleting every row whose substitute flag is set leaves
the whole `LeagueLeaderboard` output unchanged.  (The original claim fails
for the other two outputs — see the counterexample — because
`get_player_scores` never reads the substitute column, and
`get_team_scores` registers a substitute row's team as a zeroed entry.) -/
theorem league_stats_ignore_substitute_rows (rs : List Row) (s : ℤ) :
    getLeagueStats rs s
      = getLeagueStats (rs.filter (fun r => !isSubCell r.subCell)) s := by
  unfold getLeagueStats
  have hfold : rs.foldl (lgStep s) ⟨[], [], [], []⟩
      = (rs.filter (fun r => !isSubCell r.subCell)).foldl (lgStep s)
          ⟨[], [], [], []⟩ := by
    apply foldl_filter_id
    intro b a ha
    refine lgStep_sub s b a ?_
    cases hsub : isSubCell a.subCell
    · simp [hsub] at ha
    · rfl
  rw [hfold]

/-- A record set containing a substitute row (Sue, team Blue), and the
same set with the substitute row deleted. -/
def sampleC1 : List Row :=
  [ sampleRow "Red" "Ann" 1 1 [150] false false (some "Blue")
  , sampleRow "Blue" "Sue" 1 1 [100] false true (some "Red") ]

/-- `sampleC1` without its substitute row. -/
def sampleC1noSub : List Row :=
  [ sampleRow "Red" "Ann" 1 1 [150] false false (some "Blue") ]

/-- **C1 counterexample.**  The substitute row for Sue is fully counted by
`get_player_scores` (her whole `PlayerSeasonStats` is built from it), and
deleting the substitute row changes the `get_team_scores` output (the
zeroed "Blue" team entry disappears): substitute rows do appear in
`PlayerSeasonStats` and `TeamSeasonStats` outputs. -/
theorem substitute_rows_reach_player_and_team_outputs :
    getPlayerScores sampleC1 1 (some "Sue") none
      = PSOut.single "Sue"
          { team := "Blue", scores := [100], average := 100, stdDevSq := 0
            weeksPlayed := 1, weeksAbsent := 0, highestGame := 100
            lowestGame := 100 } ∧
    getTeamScores sampleC1 1 none none ≠ getTeamScores sampleC1noSub 1 none none := by
  constructor
  · with_unfolding_all decide
  · with_unfolding_all decide

/-! ## C5/C8/C9/C10: the `add_score` write path -/

/-- Index of the first row satisfying a predicate. -/
def findIdxSpec (q : Row → Bool) : List Row → Option ℕ
  | [] => none
  | r :: t => if q r then some 0 else (findIdxSpec q t).map (· + 1)

/-- The row `add_score` selects: with a week, the first row matching
player (one-directional containment), season and week; without a week,
the first row of the maximal positive week among matching rows. -/
def addSelect (p : String) (s : ℤ) (wk : Option ℤ) (rs : List Row) : Option ℕ :=
  match wk with
  | some w => findIdxSpec (fun r => addMatch p s r && (safeInt r.week 0 == w)) rs
  | none => latestTarget p s rs

theorem addScoreWeekLoop_eq (p : String) (score : ℤ) (s w : ℤ) :
    ∀ rs : List Row,
    addScoreWeekLoop p score s w rs =
      match findIdxSpec (fun r => addMatch p s r && (safeInt r.week 0 == w)) rs with
      | none => (false, rs)
      | some i =>
        match rs[i]? with
        | some r =>
          match firstEmptySlot r with
          | some j => (true, rs.set i (setSlot r j (Cell.num (score : ℚ))))
          | none => (false, rs)
        | none => (false, rs) := by
  intro rs
  induction rs with
  | nil => rfl
  | cons r t ih =>
    unfold addScoreWeekLoop findIdxSpec
    by_cases hq : (addMatch p s r && (safeInt r.week 0 == w)) = true
    · simp only [hq, if_pos]
      cases hs : firstEmptySlot r <;> simp [hs]
    · simp only [eq_false_of_ne_true hq, Bool.false_eq_true, if_neg, not_false_iff]
      rw [ih]
      cases hf : findIdxSpec (fun r => addMatch p s r && (safeInt r.week 0 == w)) t with
      | none => simp
      | some i =>
        simp only [Option.map_some']
        cases ht : t[i]? with
        | none => simp [ht]
        | some rr =>
          cases hs : firstEmptySlot rr <;> simp [ht, hs]

/-- `add_score` in terms of its row selection. -/
theorem addScore_eq_select (rs : List Row) (p : String) (score : ℤ)
    (wk : Option ℤ) (s : ℤ) :
    addScore rs p score wk s =
      match addSelect p s wk rs with
      | none => (false, rs)
      | some i =>
        match rs[i]? with
        | some r =>
          match firstEmptySlot r with
          | some j => (true, rs.set i (setSlot r j (Cell.num (score : ℚ))))
          | none => (false, rs)
        | none => (false, rs) := by
  cases wk with
  | none =>
    unfold addScore addSelect
    cases ht : latestTarget p s rs with
    | none => rfl
    | some i =>
      cases hr : rs[i]? with
      | none => rfl
      | some r => cases hs : firstEmptySlot r <;> rfl
  | some w => exact addScoreWeekLoop_eq p score s w rs

theorem findIdxSpec_some_get (q : Row → Bool) :
    ∀ (l : List Row) (i : ℕ), findIdxSpec q l = some i →
      ∃ r, l[i]? = some r ∧ q r = true := by
  intro l
  induction l with
  | nil => intro i h; cases h
  | cons r t ih =>
    intro i h
    unfold findIdxSpec at h
    by_cases hq : q r = true
    · rw [if_pos hq] at h
      cases h
      exact ⟨r, by simp, hq⟩
    · rw [if_neg hq] at h
      cases hf : findIdxSpec q t with
      | none => rw [hf] at h; cases h
      | some i2 =>
        rw [hf] at h
        simp at h
        cases h
        rcases ih i2 hf with ⟨x, hx, hqx⟩
        exact ⟨x, by simpa using hx, hqx⟩

theorem findIdxSpec_none_iff (q : Row → Bool) :
    ∀ l : List Row, findIdxSpec q l = none ↔ ∀ r ∈ l, q r = false := by
  intro l
  induction l with
  | nil => simp [findIdxSpec]
  | cons r t ih =>
    unfold findIdxSpec
    by_cases hq : q r = true
    · rw [if_pos hq]
      constructor
      · intro hc; cases hc
      · intro hall
        have hr := hall r (List.mem_cons_self r t)
        rw [hq] at hr; cases hr
    · rw [if_neg hq]
      cases hf : findIdxSpec q t with
      | none =>
        rw [hf] at ih
        simp only [hf, Option.map_none']
        constructor
        · intro _ x hx
          rcases List.mem_cons.mp hx with h | h
          · subst h; exact eq_false_of_ne_true hq
          · exact (ih.mp rfl) x h
        · intro _; trivial
      | some i =>
        simp only [hf, Option.map_some']
        constructor
        · intro hc; cases hc
        · intro hall
          rcases findIdxSpec_some_get q t i hf with ⟨x, hx, hqx⟩
          have hmem : x ∈ t := by
            rcases List.getElem?_eq_some_iff.mp hx with ⟨hlt, heq⟩
            exact heq ▸ List.getElem_mem hlt
          have := hall x (List.mem_cons_of_mem _ hmem)
          rw [hqx] at this; cases this

theorem latestTarget_fold_none_iff (p : String) (s : ℤ) :
    ∀ (l : List Row) (mw : ℤ) (tgt : Option ℕ) (i : ℕ),
      (l.foldl (fun (st : ℤ × Option ℕ × ℕ) r =>
        if addMatch p s r then
          let wn := safeInt r.week 0
          if st.1 < wn then (wn, some st.2.2, st.2.2 + 1)
          else (st.1, st.2.1, st.2.2 + 1)
        else (st.1, st.2.1, st.2.2 + 1)) (mw, tgt, i)).2.1 = none ↔
      (tgt = none ∧ ∀ r ∈ l, addMatch p s r = true → safeInt r.week 0 ≤ mw) := by
  intro l
  induction l with
  | nil => intro mw tgt i; simp
  | cons r t ih =>
    intro mw tgt i
    rw [List.foldl_cons]
    by_cases hm : addMatch p s r = true
    · by_cases hw : mw < safeInt r.week 0
      · simp only [hm, if_pos, hw]
        rw [ih]
        constructor
        · intro h; cases h.1
        · intro h
          exfalso
          have := h.2 r (List.mem_cons_self r t) hm
          omega
      · simp only [hm, if_pos, hw, if_neg, not_false_iff]
        rw [ih]
        constructor
        · intro h
          refine ⟨h.1, ?_⟩
          intro x hx hqx
          rcases List.mem_cons.mp hx with hh | hh
          · subst hh; omega
          · exact h.2 x hh hqx
        · intro h
          exact ⟨h.1, fun x hx hqx => h.2 x (List.mem_cons_of_mem _ hx) hqx⟩
    · simp only [eq_false_of_ne_true hm, Bool.false_eq_true, if_neg, not_false_iff]
      rw [ih]
      constructor
      · intro h
        refine ⟨h.1, ?_⟩
        intro x hx hqx
        rcases List.mem_cons.mp hx with hh | hh
        · subst hh; rw [hqx] at hm; cases hm rfl
        · exact h.2 x hh hqx
      · intro h
        exact ⟨h.1, fun x hx hqx => h.2 x (List.mem_cons_of_mem _ hx) hqx⟩

/-- No-week selection fails exactly when every matching row has a
non-positive week number. -/
theorem latestTarget_none_iff (p : String) (s : ℤ) (rs : List Row) :
    latestTarget p s rs = none ↔
      ∀ r ∈ rs, addMatch p s r = true → safeInt r.week 0 ≤ 0 := by
  unfold latestTarget
  rw [latestTarget_fold_none_iff]
  simp

theorem latestTarget_counter (p : String) (s : ℤ) :
    ∀ (l : List Row) (mw : ℤ) (tgt : Option ℕ) (i0 : ℕ),
      (∀ m, tgt = some m → m < i0) →
      ∀ i, (l.foldl (fun (st : ℤ × Option ℕ × ℕ) r =>
        if addMatch p s r then
          let wn := safeInt r.week 0
          if st.1 < wn then (wn, some st.2.2, st.2.2 + 1)
          else (st.1, st.2.1, st.2.2 + 1)
        else (st.1, st.2.1, st.2.2 + 1)) (mw, tgt, i0)).2.1 = some i →
        i < i0 + l.length := by
  intro l
  induction l with
  | nil =>
    intro mw tgt i0 hinv i h
    simp only [List.foldl_nil] at h
    have := hinv i h
    omega
  | cons r t ih =>
    intro mw tgt i0 hinv i h
    rw [List.foldl_cons] at h
    by_cases hm : addMatch p s r = true
    · by_cases hw : mw < safeInt r.week 0
      · simp only [hm, if_pos, hw] at h
        have := ih _ _ _ (by intro m hm2; cases hm2; omega) i h
        simp only [List.length_cons]
        omega
      · simp only [hm, if_pos, hw, if_neg, not_false_iff] at h
        have := ih _ _ _ (by intro m hm2; exact Nat.lt_succ_of_lt (hinv m hm2)) i h
        simp only [List.length_cons]
        omega
    · simp only [eq_false_of_ne_true hm, Bool.false_eq_true, if_neg,
        not_false_iff] at h
      have := ih _ _ _ (by intro m hm2; exact Nat.lt_succ_of_lt (hinv m hm2)) i h
      simp only [List.length_cons]
      omega

theorem latestTarget_some_lt (p : String) (s : ℤ) (rs : List Row) (i : ℕ)
    (h : latestTarget p s rs = some i) : i < rs.length := by
  unfold latestTarget at h
  have := latestTarget_counter p s rs 0 none 0 (by intro m hm; cases hm) i h
  omega

theorem findIdxSpec_some_lt (q : Row → Bool) :
    ∀ (l : List Row) (i : ℕ), findIdxSpec q l = some i → i < l.length := by
  intro l i h
  rcases findIdxSpec_some_get q l i h with ⟨r, hr, _⟩
  exact (List.getElem?_eq_some_iff.mp hr).1

theorem addSelect_some_lt (p : String) (s : ℤ) (wk : Option ℤ) (rs : List Row)
    (i : ℕ) (h : addSelect p s wk rs = some i) : i < rs.length := by
  unfold addSelect at h
  cases wk with
  | none => exact latestTarget_some_lt p s rs i h
  | some w => exact findIdxSpec_some_lt _ rs i h

/-- **C5 (amended).**  `add_score` locates the target row by
*one-directional* case-insensitive containment — the lower-cased query
must be a substring of the lower-cased player cell, never the other way
round — with the first matching row taken (week given) resp. the first
row of the maximal positive week (no week given). -/
theorem add_score_uses_one_directional_first_match (rs : List Row) (p : String)
    (score : ℤ) (wk : Option ℤ) (s : ℤ) :
    (addScore rs p score wk s =
      match addSelect p s wk rs with
      | none => (false, rs)
      | some i =>
        match rs[i]? with
        | some r =>
          match firstEmptySlot r with
          | some j => (true, rs.set i (setSlot r j (Cell.num (score : ℚ))))
          | none => (false, rs)
        | none => (false, rs)) ∧
    (∀ r : Row, addMatch p s r = true →
      ∃ ps, r.player = Cell.str ps ∧ ps ≠ "" ∧
        pyIn (pyLower p) (pyLower ps) = true ∧ cellEqInt r.season s = true) := by
  refine ⟨addScore_eq_select rs p score wk s, ?_⟩
  intro r h
  unfold addMatch at h
  cases hp : r.player with
  | str ps =>
    rw [hp] at h
    simp only [Bool.and_eq_true, decide_eq_true_eq] at h
    exact ⟨ps, rfl, h.1.1, h.1.2, h.2⟩
  | blank => rw [hp] at h; cases h
  | num q => rw [hp] at h; cases h
  | boolv b => rw [hp] at h; cases h

/-- Record set for the C5 counterexample: one row for player "Bob" in
week 3 with all game slots empty. -/
def sampleC5 : List Row := [sampleRow "Red" "Bob" 1 3 [] false false none]

/-- **C5 counterexample.**  The Name Resolver's bidirectional rule
matches query "Bobby Smith" against player "Bob" (the candidate is a
substring of the query), yet `add_score` fails on exactly that store —
its matching is one-directional, not the Name Resolver's rule. -/
theorem add_score_matching_is_not_bidirectional :
    nameMatch "Bobby Smith" "Bob" = true ∧
    firstEmptySlot (sampleRow "Red" "Bob" 1 3 [] false false none) = some 0 ∧
    addScore sampleC5 "Bobby Smith" 150 (some 3) 1 = (false, sampleC5) := by
  refine ⟨?_, ?_, ?_⟩ <;> with_unfolding_all decide

/-- **C8 (amended).**  `add_score` returns false exactly when the row
selection fails or the selected row's five slots are all occupied, where
selection with a week is the first row matching player/season/week, and
selection without a week requires a matching row with a *positive* week
number (rows whose week is 0, blank or unparsable are never selected);
in every other case it writes the score into the selected row's first
empty slot and returns true. -/
theorem add_score_false_iff_no_selection_or_full (rs : List Row) (p : String)
    (score : ℤ) (wk : Option ℤ) (s : ℤ) :
    ((addScore rs p score wk s).1 = false ↔
      (addSelect p s wk rs = none ∨
        ∃ i r, addSelect p s wk rs = some i ∧ rs[i]? = some r ∧
          firstEmptySlot r = none)) ∧
    (∀ w, wk = some w →
      (addSelect p s wk rs = none ↔
        ∀ r ∈ rs, (addMatch p s r && (safeInt r.week 0 == w)) = false)) ∧
    (wk = none →
      (addSelect p s wk rs = none ↔
        ∀ r ∈ rs, addMatch p s r = true → safeInt r.week 0 ≤ 0)) ∧
    ((addScore rs p score wk s).1 = true →
      ∃ i r j, addSelect p s wk rs = some i ∧ rs[i]? = some r ∧
        firstEmptySlot r = some j ∧
        (addScore rs p score wk s).2 = rs.set i (setSlot r j (Cell.num (score : ℚ)))) := by
  refine ⟨?_, ?_, ?_, ?_⟩
  · rw [addScore_eq_select]
    cases hsel : addSelect p s wk rs with
    | none => simp
    | some i =>
      have hlt := addSelect_some_lt p s wk rs i hsel
      rcases List.getElem?_eq_some_iff.mpr ⟨hlt, rfl⟩ with hr
      dsimp only
      rw [hr]
      dsimp only
      cases hs : firstEmptySlot (rs[i]) with
      | some j =>
        dsimp only
        constructor
        · intro hc; cases hc
        · rintro (hc | ⟨i2, r2, hi2, hr2, hf2⟩)
          · cases hc
          · cases hi2
            rw [hr] at hr2
            cases hr2
            rw [hs] at hf2
            cases hf2
      | none =>
        dsimp only
        constructor
        · intro _
          exact Or.inr ⟨i, rs[i], rfl, hr, hs⟩
        · intro _; rfl
  · intro w hw
    subst hw
    unfold addSelect
    rw [findIdxSpec_none_iff]
  · intro hw
    subst hw
    unfold addSelect
    exact latestTarget_none_iff p s rs
  · rw [addScore_eq_select]
    cases hsel : addSelect p s wk rs with
    | none => intro hc; cases hc
    | some i =>
      have hlt := addSelect_some_lt p s wk rs i hsel
      rcases List.getElem?_eq_some_iff.mpr ⟨hlt, rfl⟩ with hr
      dsimp only
      rw [hr]
      dsimp only
      cases hs : firstEmptySlot (rs[i]) with
      | some j =>
        dsimp only
        intro _
        exact ⟨i, rs[i], j, rfl, hr, hs, rfl⟩
      | none =>
        dsimp only
        intro hc
        cases hc

/-- Record set for the C8 counterexample: the only row for "Bob" has
week 0 and all slots empty. -/
def sampleC8 : List Row := [sampleRow "Red" "Bob" 1 0 [] false false none]

/-- **C8 counterexample.**  A row matching the player and season exists
and has empty slots, yet `add_score` (no week given) returns false and
writes nothing, because rows with week 0 are never selected — the claim's
"false exactly when no row matches or the row is full" is violated. -/
theorem add_score_misses_matching_week0_row :
    addMatch "Bob" 1 (sampleRow "Red" "Bob" 1 0 [] false false none) = true ∧
    firstEmptySlot (sampleRow "Red" "Bob" 1 0 [] false false none) = some 0 ∧
    addScore sampleC8 "Bob" 150 none 1 = (false, sampleC8) := by
  refine ⟨?_, ?_, ?_⟩ <;> with_unfolding_all decide

/-- **C10.**  A game slot counts as empty only when its cell is `None` or
the empty string; any other value — including a recorded 0, which every
statistic treats as "not played" — counts as occupied, so on a selected
row whose five cells all hold 0 `add_score` returns false and writes
nothing. -/
theorem add_score_zero_slots_count_occupied :
    (∀ c, isEmptyCell c = true ↔ (c = Cell.blank ∨ c = Cell.str "")) ∧
    (∀ (rs : List Row) (p : String) (score : ℤ) (wk : Option ℤ) (s : ℤ)
      (i : ℕ) (r : Row), addSelect p s wk rs = some i → rs[i]? = some r →
      gamesList r =
        [Cell.num 0, Cell.num 0, Cell.num 0, Cell.num 0, Cell.num 0] →
      addScore rs p score wk s = (false, rs)) := by
  constructor
  · intro c
    cases c with
    | blank => simp [isEmptyCell]
    | str s =>
      simp only [isEmptyCell]
      constructor
      · intro h
        exact Or.inr (by rw [of_decide_eq_true h])
      · rintro (h | h)
        · cases h
        · cases h; simp
    | num q => simp [isEmptyCell]
    | boolv b => simp [isEmptyCell]
  · intro rs p score wk s i r hsel hget hg
    have hempty : firstEmptySlot r = none := by
      have hfields := hg
      simp only [gamesList, List.cons.injEq, and_true] at hfields
      obtain ⟨h1, h2, h3, h4, h5⟩ := hfields
      unfold firstEmptySlot
      rw [h1, h2, h3, h4, h5]
      rfl
    rw [addScore_eq_select, hsel]
    dsimp only
    rw [hget]
    dsimp only
    rw [hempty]

/-- Record set for the C10 witness: the selected row's five cells all
hold a recorded 0. -/
def sampleC10 : List Row := [sampleRow "Red" "Bob" 1 1 [0, 0, 0, 0, 0] false false none]

theorem add_score_zero_slots_count_occupied_witness :
    addScore sampleC10 "Bob" 150 (some 1) 1 = (false, sampleC10) := by
  refine add_score_zero_slots_count_occupied.2 sampleC10 "Bob" 150 (some 1) 1 0
    (sampleRow "Red" "Bob" 1 1 [0, 0, 0, 0, 0] false false none) ?_ ?_ ?_
  · with_unfolding_all decide
  · with_unfolding_all decide
  · with_unfolding_all decide

theorem add_score_false_iff_no_selection_or_full_witness :
    ((addScore sampleC8 "Bob" 150 none 1).1 = false ↔
      (addSelect "Bob" 1 none sampleC8 = none ∨
        ∃ i r, addSelect "Bob" 1 none sampleC8 = some i ∧ sampleC8[i]? = some r ∧
          firstEmptySlot r = none)) ∧
    (addSelect "Bob" 1 none sampleC8 = none ↔
      ∀ r ∈ sampleC8, addMatch "Bob" 1 r = true → safeInt r.week 0 ≤ 0) :=
  ⟨(add_score_false_iff_no_selection_or_full sampleC8 "Bob" 150 none 1).1,
   (add_score_false_iff_no_selection_or_full sampleC8 "Bob" 150 none 1).2.2.1 rfl⟩

/-! ## C9: the `add_score` round-trip frame property -/

/-- A row that the `get_player_scores` scan actually processes. -/
def psActive (s : ℤ) (wf : Option ℤ) (r : Row) : Bool :=
  cellEqInt r.season s && !(weekSkip wf r) && (playerKey r).isSome

theorem psStep_inactive (s : ℤ) (wf : Option ℤ) (acc : List (String × PData))
    (r : Row) (h : psActive s wf r = false) : psStep s wf acc r = acc := by
  unfold psStep
  unfold psActive at h
  by_cases h1 : (cellEqInt r.season s : Bool) = true
  · by_cases h2 : (weekSkip wf r : Bool) = true
    · rw [if_neg (by simp [h1]), if_pos h2]
    · rw [if_neg (by simp [h1]), if_neg (by simp [h2])]
      have hkey : (playerKey r).isSome = false := by
        rw [h1, eq_false_of_ne_true h2] at h
        simpa using h
      cases hp : r.player with
      | str ps =>
        dsimp only
        by_cases hps : ps = ""
        · rw [if_pos hps]
        · exfalso
          unfold playerKey at hkey
          rw [hp] at hkey
          simp [hps] at hkey
      | blank => rfl
      | num q => rfl
      | boolv b => rfl
  · rw [if_pos (by simp [eq_false_of_ne_true h1])]

theorem foldl_inactive_id {α β : Type} (f : β → α → β) :
    ∀ l : List α, (∀ a ∈ l, ∀ b, f b a = b) → ∀ b : β, l.foldl f b = b := by
  intro l
  induction l with
  | nil => intro _ b; rfl
  | cons a t ih =>
    intro h b
    rw [List.foldl_cons, h a (List.mem_cons_self a t)]
    exact ih (fun x hx => h x (List.mem_cons_of_mem _ hx)) b

theorem foldl_single_active {α β : Type} (f : β → α → β) (l : List α) (i : ℕ)
    (x : α) (hi : l[i]? = some x)
    (hother : ∀ m y, m ≠ i → l[m]? = some y → ∀ b, f b y = b) :
    ∀ b, l.foldl f b = f b x := by
  intro b
  obtain ⟨hlt, hx⟩ := List.getElem?_eq_some_iff.mp hi
  have hsplit : l = l.take i ++ l[i] :: l.drop (i + 1) := by
    conv_lhs => rw [← List.take_append_drop i l]
    congr 1
    exact List.drop_eq_getElem_cons hlt
  conv_lhs => rw [hsplit]
  rw [List.foldl_append, List.foldl_cons]
  have htake : (l.take i).foldl f b = b := by
    apply foldl_inactive_id
    intro a ha b'
    rcases List.mem_iff_getElem?.mp ha with ⟨m, hm⟩
    have hmi : m < i := by
      have hlen := (List.getElem?_eq_some_iff.mp hm).1
      simp only [List.length_take] at hlen
      omega
    rw [List.getElem?_take_of_lt hmi] at hm
    exact hother m a (by omega) hm b'
  rw [htake, hx]
  apply foldl_inactive_id
  intro a ha b'
  rcases List.mem_iff_getElem?.mp ha with ⟨m, hm⟩
  rw [List.getElem?_drop] at hm
  exact hother (i + 1 + m) a (by omega) hm b'

theorem addMatch_true_elim (p : String) (s : ℤ) (r : Row)
    (h : addMatch p s r = true) :
    ∃ ps, r.player = Cell.str ps ∧ ps ≠ "" ∧
      pyIn (pyLower p) (pyLower ps) = true ∧ cellEqInt r.season s = true := by
  unfold addMatch at h
  cases hp : r.player with
  | str ps =>
    rw [hp] at h
    simp only [Bool.and_eq_true, decide_eq_true_eq] at h
    exact ⟨ps, rfl, h.1.1, h.1.2, h.2⟩
  | blank => rw [hp] at h; cases h
  | num q => rw [hp] at h; cases h
  | boolv b => rw [hp] at h; cases h

theorem setSlot_preserves (r : Row) (j : ℕ) (v : Cell) :
    (setSlot r j v).team = r.team ∧ (setSlot r j v).player = r.player ∧
    (setSlot r j v).season = r.season ∧ (setSlot r j v).week = r.week ∧
    (setSlot r j v).avgCell = r.avgCell ∧
    (setSlot r j v).absentCell = r.absentCell ∧
    (setSlot r j v).subCell = r.subCell ∧ (setSlot r j v).oppCell = r.oppCell := by
  unfold setSlot
  rcases j with _ | _ | _ | _ | j <;>
    exact ⟨rfl, rfl, rfl, rfl, rfl, rfl, rfl, rfl⟩

theorem gamesList_setSlot (r : Row) (j : ℕ) (v : Cell) (hj : j < 5) :
    gamesList (setSlot r j v) = (gamesList r).set j v := by
  unfold setSlot gamesList
  rcases j with _ | _ | _ | _ | j
  · rfl
  · rfl
  · rfl
  · rfl
  · rcases j with _ | j
    · rfl
    · omega

theorem firstEmptySlot_spec (r : Row) (j : ℕ) (h : firstEmptySlot r = some j) :
    j < 5 ∧ isEmptyCell ((gamesList r).getD j Cell.blank) = true ∧
      ∀ m, m < j → isEmptyCell ((gamesList r).getD m Cell.blank) = false := by
  unfold firstEmptySlot at h
  by_cases h1 : isEmptyCell r.g1 = true
  · rw [if_pos h1] at h
    cases h
    exact ⟨by omega, h1, by intro m hm; omega⟩
  · rw [if_neg h1] at h
    by_cases h2 : isEmptyCell r.g2 = true
    · rw [if_pos h2] at h
      cases h
      refine ⟨by omega, h2, ?_⟩
      intro m hm
      interval_cases m
      exact eq_false_of_ne_true h1
    · rw [if_neg h2] at h
      by_cases h3 : isEmptyCell r.g3 = true
      · rw [if_pos h3] at h
        cases h
        refine ⟨by omega, h3, ?_⟩
        intro m hm
        interval_cases m
        · exact eq_false_of_ne_true h1
        · exact eq_false_of_ne_true h2
      · rw [if_neg h3] at h
        by_cases h4 : isEmptyCell r.g4 = true
        · rw [if_pos h4] at h
          cases h
          refine ⟨by omega, h4, ?_⟩
          intro m hm
          interval_cases m
          · exact eq_false_of_ne_true h1
          · exact eq_false_of_ne_true h2
          · exact eq_false_of_ne_true h3
        · rw [if_neg h4] at h
          by_cases h5 : isEmptyCell r.g5 = true
          · rw [if_pos h5] at h
            cases h
            refine ⟨by omega, h5, ?_⟩
            intro m hm
            interval_cases m
            · exact eq_false_of_ne_true h1
            · exact eq_false_of_ne_true h2
            · exact eq_false_of_ne_true h3
            · exact eq_false_of_ne_true h4
          · rw [if_neg h5] at h
            cases h

theorem playedCells_set_decomp (cs : List Cell) (j : ℕ) (hj : j < cs.length)
    (he : isEmptyCell (cs.getD j Cell.blank) = true) :
    playedCells (cs.set j (Cell.num 150)) =
      playedCells (cs.take j) ++ 150 :: playedCells (cs.drop (j + 1)) ∧
    playedCells cs = playedCells (cs.take j) ++ playedCells (cs.drop (j + 1)) := by
  have hgd : cs.getD j Cell.blank = cs[j] := by
    simp [List.getD, List.getElem?_eq_getElem hj]
  have hempty_fn : playedFn (cs[j]) = none := by
    rw [← hgd]
    cases hc : cs.getD j Cell.blank with
    | blank => rfl
    | str st =>
      rw [hc] at he
      unfold isEmptyCell at he
      have hst : st = "" := of_decide_eq_true he
      subst hst
      with_unfolding_all decide
    | num q => rw [hc] at he; cases he
    | boolv b => rw [hc] at he; cases he
  have hsplit : cs = cs.take j ++ cs[j] :: cs.drop (j + 1) := by
    conv_lhs => rw [← List.take_append_drop j cs]
    congr 1
    exact List.drop_eq_getElem_cons hj
  constructor
  · have hset := List.set_eq_take_append_cons_drop (l := cs) (n := j)
      (a := Cell.num 150)
    rw [if_pos hj] at hset
    rw [hset]
    unfold playedCells
    rw [List.filterMap_append, List.filterMap_cons]
    have h150 : playedFn (Cell.num 150) = some 150 := by
      unfold playedFn safeFloat
      norm_num
    rw [h150]
  · conv_lhs => rw [hsplit]
    unfold playedCells
    rw [List.filterMap_append, List.filterMap_cons, hempty_fn]

theorem psStep_nil_active (s : ℤ) (wf : Option ℤ) (r : Row) (ps : String)
    (h1 : cellEqInt r.season s = true) (h2 : weekSkip wf r = false)
    (hp : r.player = Cell.str ps) (hps : ps ≠ "") :
    psStep s wf [] r =
      [(pyStrip ps,
        { team := if cellTruthy r.team then pyStrip (pyStr r.team) else "Unknown"
          scores := if isAbsentCell r.absentCell then [] else playedGames r
          absentCount := if isAbsentCell r.absentCell then 1 else 0
          weeks := [⟨safeInt r.week 0, playedGames r, rowWeekAvg r,
            isAbsentCell r.absentCell⟩]
          highestGame := if isAbsentCell r.absentCell then 0
            else foldMaxQ (playedGames r) 0
          lowestGame := if isAbsentCell r.absentCell then 300
            else foldMinQ (playedGames r) 300 })] := by
  unfold psStep
  rw [if_neg (by simp [h1]), if_neg (by simp [h2]), hp]
  dsimp only
  rw [if_neg hps]
  unfold aensure aadjust alookup psInit
  by_cases hab : isAbsentCell r.absentCell = true
  · simp [hab, List.find?]
  · simp [eq_false_of_ne_true hab, List.find?]

theorem psFin_weekView (p : String) (w : ℤ) (key : String) (d : PData)
    (hp : p ≠ "") (hm : nameMatch p key = true)
    (e : WeekEntry) (hweeks : d.weeks = [e]) (hwk : e.week = w) :
    [(key, d)].foldl (psFinStep (some p) (some w)) (Sum.inl [])
      = Sum.inr (PSOut.weekView key d.team e.games e.avg e.absent) := by
  rw [List.foldl_cons, List.foldl_nil]
  unfold psFinStep
  simp only [Option.isSome_some, Bool.true_and]
  rw [if_pos (by simp [hp])]
  simp only [Option.getD_some]
  rw [if_pos hm, hweeks]
  simp [List.find?, hwk]

/-- The team label a row contributes to `player_data`. -/
def psTeamOf (r : Row) : String :=
  if cellTruthy r.team then pyStrip (pyStr r.team) else "Unknown"

/-- The update `get_player_scores` applies to one player entry for one of
that player's rows. -/
def psUpdate (r : Row) (d : PData) : PData :=
  let wgames := playedGames r
  let wavg := rowWeekAvg r
  let isAb := isAbsentCell r.absentCell
  let d1 :=
    if isAb then { d with absentCount := d.absentCount + 1 }
    else
      { d with scores := d.scores ++ wgames
               highestGame := foldMaxQ wgames d.highestGame
               lowestGame := foldMinQ wgames d.lowestGame }
  { d1 with weeks := d1.weeks ++ [⟨safeInt r.week 0, wgames, wavg, isAb⟩] }

theorem psUpdate_team (r : Row) (d : PData) : (psUpdate r d).team = d.team := by
  unfold psUpdate
  by_cases h : (isAbsentCell r.absentCell : Bool) = true <;> simp [h]

theorem psUpdate_weeks (r : Row) (d : PData) :
    (psUpdate r d).weeks = d.weeks ++
      [⟨safeInt r.week 0, playedGames r, rowWeekAvg r, isAbsentCell r.absentCell⟩] := by
  unfold psUpdate
  by_cases h : (isAbsentCell r.absentCell : Bool) = true <;> simp [h]

theorem psRowFor_imp_active (s : ℤ) (wf : Option ℤ) (k : String) (r : Row)
    (h : psRowFor s wf k r = true) : psActive s wf r = true := by
  unfold psRowFor at h
  unfold psActive
  simp only [Bool.and_eq_true] at h ⊢
  refine ⟨h.1, ?_⟩
  have := eq_of_beq h.2
  simp [this]

/-- The entry `get_player_scores` keeps for key `k` after one row. -/
theorem psStep_alookup (s : ℤ) (wf : Option ℤ) (acc : List (String × PData))
    (r : Row) (k : String) :
    alookup (psStep s wf acc r) k
      = if psRowFor s wf k r
        then some (psUpdate r ((alookup acc k).getD (psInit (psTeamOf r))))
        else alookup acc k := by
  unfold psStep psRowFor playerKey
  by_cases h1 : (cellEqInt r.season s : Bool) = true
  · by_cases h2 : (weekSkip wf r : Bool) = true
    · rw [if_neg (by simp [h1]), if_pos h2]
      simp [h2]
    · rw [if_neg (by simp [h1]), if_neg (by simp [h2])]
      have h2f : (weekSkip wf r : Bool) = false := eq_false_of_ne_true h2
      cases hp : r.player with
      | blank => simp
      | num q => simp
      | boolv b => simp
      | str ps =>
        dsimp only
        by_cases hps : ps = ""
        · rw [if_pos hps]
          simp [hps]
        · rw [if_neg hps]
          by_cases hk : ((pyStrip ps : String) == k) = true
          · have hkk : pyStrip ps = k := eq_of_beq hk
            rw [hkk, alookup_aadjust_aensure_same]
            have hcond : (cellEqInt r.season s && !weekSkip wf r
                && ((if ps = "" then (none : Option String) else some k) == some k))
                = true := by
              simp [h1, h2f, hps]
            conv_rhs => rw [if_pos hcond]
            rfl
          · rw [alookup_aadjust_aensure_ne _ _ _ _ _ (eq_false_of_ne_true hk)]
            rw [if_neg (by simp [hps, eq_false_of_ne_true hk])]
  · rw [if_pos h1]
    rw [if_neg (by simp [eq_false_of_ne_true h1])]

/-- The entry for key `k` after the whole scan: the contributing rows'
updates, folded in row order. -/
theorem psFold_alookup (s : ℤ) (wf : Option ℤ) (k : String) :
    ∀ (rs : List Row) (acc : List (String × PData)),
      alookup (rs.foldl (psStep s wf) acc) k
        = (rs.filter (psRowFor s wf k)).foldl
            (fun od r => some (psUpdate r (od.getD (psInit (psTeamOf r)))))
            (alookup acc k) := by
  intro rs
  induction rs with
  | nil => intro acc; rfl
  | cons r t ih =>
    intro acc
    rw [List.foldl_cons, List.filter_cons, ih, psStep_alookup]
    by_cases hc : psRowFor s wf k r = true
    · rw [if_pos hc, if_pos hc, List.foldl_cons]
    · rw [if_neg hc, if_neg (by simp [eq_false_of_ne_true hc])]

theorem filter_single {α : Type} (P : α → Bool) (l : List α) (i : ℕ) (x : α)
    (hi : l[i]? = some x) (hx : P x = true)
    (hother : ∀ m y, m ≠ i → l[m]? = some y → P y = false) :
    l.filter P = [x] := by
  obtain ⟨hlt, hgx⟩ := List.getElem?_eq_some_iff.mp hi
  have hsplit : l = l.take i ++ l[i] :: l.drop (i + 1) := by
    conv_lhs => rw [← List.take_append_drop i l]
    congr 1
    exact List.drop_eq_getElem_cons hlt
  conv_lhs => rw [hsplit]
  rw [List.filter_append, List.filter_cons, hgx, hx]
  have htake : (l.take i).filter P = [] := by
    rw [List.filter_eq_nil_iff]
    intro a ha
    rcases List.mem_iff_getElem?.mp ha with ⟨m, hm⟩
    have hmi : m < i := by
      have hlen := (List.getElem?_eq_some_iff.mp hm).1
      simp only [List.length_take] at hlen
      omega
    rw [List.getElem?_take_of_lt hmi] at hm
    simp [hother m a (by omega) hm]
  have hdrop : (l.drop (i + 1)).filter P = [] := by
    rw [List.filter_eq_nil_iff]
    intro a ha
    rcases List.mem_iff_getElem?.mp ha with ⟨m, hm⟩
    rw [List.getElem?_drop] at hm
    simp [hother (i + 1 + m) a (by omega) hm]
  rw [htake, hdrop]
  rfl

theorem psStep_akeys_sub (s : ℤ) (wf : Option ℤ) (acc : List (String × PData))
    (r : Row) (kk : String) (h : kk ∈ akeys (psStep s wf acc r)) :
    kk ∈ akeys acc ∨ (psActive s wf r = true ∧ playerKey r = some kk) := by
  by_cases ha : psActive s wf r = true
  · have hkey : (playerKey r).isSome = true := by
      unfold psActive at ha
      simp only [Bool.and_eq_true] at ha
      exact ha.2
    have h1 : (cellEqInt r.season s : Bool) = true := by
      unfold psActive at ha
      simp only [Bool.and_eq_true] at ha
      exact ha.1.1
    have h2 : (weekSkip wf r : Bool) = false := by
      unfold psActive at ha
      simp only [Bool.and_eq_true] at ha
      simpa using ha.1.2
    cases hps : r.player with
    | blank => simp [playerKey, hps] at hkey
    | num q => simp [playerKey, hps] at hkey
    | boolv b => simp [playerKey, hps] at hkey
    | str ps =>
      rw [playerKey, hps] at hkey
      dsimp only at hkey
      have hpsne : ps ≠ "" := by
        intro he
        rw [if_pos he] at hkey
        cases hkey
      rw [if_neg hpsne] at hkey
      have hstep : psStep s wf acc r
          = aadjust (aensure acc (pyStrip ps)
              (psInit (if cellTruthy r.team then pyStrip (pyStr r.team) else "Unknown")))
              (pyStrip ps) (fun d =>
                let d1 :=
                  if isAbsentCell r.absentCell then { d with absentCount := d.absentCount + 1 }
                  else
                    { d with scores := d.scores ++ playedGames r
                             highestGame := foldMaxQ (playedGames r) d.highestGame
                             lowestGame := foldMinQ (playedGames r) d.lowestGame }
                { d1 with weeks := d1.weeks ++
                    [⟨safeInt r.week 0, playedGames r, rowWeekAvg r,
                      isAbsentCell r.absentCell⟩] }) := by
        unfold psStep
        rw [if_neg (by simp [h1]), if_neg (by simp [h2]), hps]
        dsimp only
        rw [if_neg hpsne]
      rw [hstep, akeys_aadjust, akeys_aensure] at h
      by_cases hsome : ((alookup acc (pyStrip ps)).isSome : Bool) = true
      · rw [if_pos hsome] at h
        exact Or.inl h
      · rw [if_neg hsome] at h
        rcases List.mem_append.mp h with hin | hnew
        · exact Or.inl hin
        · have : kk = pyStrip ps := by simpa using hnew
          refine Or.inr ⟨ha, ?_⟩
          rw [playerKey, hps]
          dsimp only
          rw [if_neg hpsne, this]
  · rw [psStep_inactive s wf acc r (eq_false_of_ne_true ha)] at h
    exact Or.inl h

theorem psFold_akeys_sub (s : ℤ) (wf : Option ℤ) :
    ∀ (rs : List Row) (acc : List (String × PData)) (kk : String),
      kk ∈ akeys (rs.foldl (psStep s wf) acc) →
      kk ∈ akeys acc ∨ ∃ r ∈ rs, psActive s wf r = true ∧ playerKey r = some kk := by
  intro rs
  induction rs with
  | nil => intro acc kk h; exact Or.inl h
  | cons r t ih =>
    intro acc kk h
    rw [List.foldl_cons] at h
    rcases ih (psStep s wf acc r) kk h with hin | ⟨r', hr', hk'⟩
    · rcases psStep_akeys_sub s wf acc r kk hin with hin2 | hr
      · exact Or.inl hin2
      · exact Or.inr ⟨r, List.mem_cons_self r t, hr⟩
    · exact Or.inr ⟨r', List.mem_cons_of_mem _ hr', hk'⟩

theorem alookup_split {K β : Type} [BEq K] [LawfulBEq K]
    (l : List (K × β)) (k : K) (v : β) (h : alookup l k = some v) :
    ∃ l1 l2, l = l1 ++ (k, v) :: l2 ∧ ∀ e ∈ l1, (e.1 == k) = false := by
  induction l with
  | nil => rw [alookup_nil] at h; cases h
  | cons e t ih =>
    rw [alookup_cons] at h
    by_cases he : (e.1 == k) = true
    · rw [if_pos he] at h
      have hk : e.1 = k := eq_of_beq he
      have hv : e.2 = v := by simpa using h
      have hev : e = (k, v) := by
        obtain ⟨e1, e2⟩ := e
        simp only at hk hv
        rw [hk, hv]
      refine ⟨[], t, by rw [hev]; rfl, ?_⟩
      intro e' he'
      cases he'
    · rw [if_neg he] at h
      rcases ih h with ⟨l1, l2, heq, hl1⟩
      refine ⟨e :: l1, l2, by rw [heq]; rfl, ?_⟩
      intro e' he'
      rcases List.mem_cons.mp he' with rfl | hmem
      · exact eq_false_of_ne_true he
      · exact hl1 e' hmem

theorem psFinStep_id_of_no_match (p : String) (w : ℤ) (e : String × PData)
    (hnm : nameMatch p e.1 = false) :
    ∀ b, psFinStep (some p) (some w) b e = b := by
  intro b
  cases b with
  | inr out => rfl
  | inl res =>
    unfold psFinStep
    dsimp only
    by_cases hp : p ≠ ""
    · rw [if_pos (by simp [hp]), if_neg (by simp [hnm])]
    · rw [if_neg (by simp [not_not.mp hp]), if_neg (by simp [hnm])]

theorem psFin_inr_const (pn : Option String) (wk : Option ℤ) :
    ∀ (l : List (String × PData)) (out : PSOut),
      l.foldl (psFinStep pn wk) (Sum.inr out) = Sum.inr out := by
  intro l
  induction l with
  | nil => intro out; rfl
  | cons a t ih =>
    intro out
    rw [List.foldl_cons]
    exact ih out

theorem psFin_scan (p : String) (w : ℤ) (hp : p ≠ "")
    (l1 : List (String × PData)) (hskip : ∀ e ∈ l1, nameMatch p e.1 = false)
    (k : String) (d : PData) (l2 : List (String × PData)) (e : WeekEntry)
    (hm : nameMatch p k = true)
    (hfind : d.weeks.find? (fun we => we.week == w) = some e) :
    (l1 ++ (k, d) :: l2).foldl (psFinStep (some p) (some w)) (Sum.inl [])
      = Sum.inr (PSOut.weekView k d.team e.games e.avg e.absent) := by
  rw [List.foldl_append]
  rw [foldl_inactive_id _ l1
    (fun a ha b => psFinStep_id_of_no_match p w a (hskip a ha) b)]
  rw [List.foldl_cons]
  have hstep : psFinStep (some p) (some w)
        (Sum.inl ([] : List (String × PStats))) (k, d)
      = Sum.inr (PSOut.weekView k d.team e.games e.avg e.absent) := by
    unfold psFinStep
    dsimp only
    rw [if_pos (by simp [hp]), if_pos (by simpa using hm)]
    simp only [Option.getD_some]
    rw [hfind]
  rw [hstep]
  exact psFin_inr_const (some p) (some w) l2 _

/-- **C9.**  For a record set containing a row for the given player,
season and week 3 with at least one empty game slot — other rows may
freely exist: other players' rows of the same week, this player's rows of
other weeks or seasons, and arbitrary inactive rows; all that is required
is that no *other* same-season week-3 row carries a player name that
name-matches the query (which also makes the target row the unique week-3
row of this player) — `add_score(player, 150, week=3)` succeeds, writes
150 into the first previously-empty slot of that row, changes no other
cell of the record store (no other slot of that row and no other row),
and re-querying that player's week-3 games shows 150 inserted at the
position of that slot among the played games, all other games
unchanged. -/
theorem add_score_roundtrip_frame (rs : List Row) (p : String) (s : ℤ)
    (i j : ℕ) (r : Row) (ps : String)
    (h1 : addSelect p s (some 3) rs = some i)
    (h2 : rs[i]? = some r)
    (h3 : firstEmptySlot r = some j)
    (hp : r.player = Cell.str ps)
    (hq : p ≠ "")
    (hm : nameMatch p (pyStrip ps) = true)
    (hothers : ∀ m rm, m ≠ i → rs[m]? = some rm →
      psActive s (some 3) rm = true →
      ∀ qs, rm.player = Cell.str qs → nameMatch p (pyStrip qs) = false) :
    addScore rs p 150 (some 3) s
      = (true, rs.set i (setSlot r j (Cell.num 150))) ∧
    (∀ m, m ≠ i → (rs.set i (setSlot r j (Cell.num 150)))[m]? = rs[m]?) ∧
    ((setSlot r j (Cell.num 150)).team = r.team ∧
      (setSlot r j (Cell.num 150)).player = r.player ∧
      (setSlot r j (Cell.num 150)).season = r.season ∧
      (setSlot r j (Cell.num 150)).week = r.week ∧
      (setSlot r j (Cell.num 150)).avgCell = r.avgCell ∧
      (setSlot r j (Cell.num 150)).absentCell = r.absentCell ∧
      (setSlot r j (Cell.num 150)).subCell = r.subCell ∧
      (setSlot r j (Cell.num 150)).oppCell = r.oppCell) ∧
    gamesList (setSlot r j (Cell.num 150)) = (gamesList r).set j (Cell.num 150) ∧
    (isEmptyCell ((gamesList r).getD j Cell.blank) = true ∧
      ∀ m, m < j → isEmptyCell ((gamesList r).getD m Cell.blank) = false) ∧
    playedGames (setSlot r j (Cell.num 150))
      = playedCells ((gamesList r).take j) ++
          150 :: playedCells ((gamesList r).drop (j + 1)) ∧
    playedGames r
      = playedCells ((gamesList r).take j) ++
          playedCells ((gamesList r).drop (j + 1)) ∧
    getPlayerScores (rs.set i (setSlot r j (Cell.num 150))) s (some p) (some 3)
      = PSOut.weekView (pyStrip ps)
          (if cellTruthy r.team then pyStrip (pyStr r.team) else "Unknown")
          (playedGames (setSlot r j (Cell.num 150)))
          (rowWeekAvg (setSlot r j (Cell.num 150)))
          (isAbsentCell r.absentCell) := by
  -- facts about the selected row
  rcases findIdxSpec_some_get _ rs i h1 with ⟨r0, hr0, hq0⟩
  rw [h2] at hr0
  cases hr0
  simp only [Bool.and_eq_true] at hq0
  have haddm : addMatch p s r = true := hq0.1
  have hw3 : safeInt r.week 0 = 3 := eq_of_beq hq0.2
  rcases addMatch_true_elim p s r haddm with ⟨ps', hps', hps'ne, _, hseason⟩
  rw [hp] at hps'
  cases hps'
  rcases firstEmptySlot_spec r j h3 with ⟨hj5, hejm, hbefore⟩
  have hc150 : ((150 : ℤ) : ℚ) = (150 : ℚ) := by norm_num
  have hilt : i < rs.length := (List.getElem?_eq_some_iff.mp h2).1
  have hresult : addScore rs p 150 (some 3) s
      = (true, rs.set i (setSlot r j (Cell.num 150))) := by
    rw [addScore_eq_select, h1]
    dsimp only
    rw [h2]
    dsimp only
    rw [h3, hc150]
  have hglen : (gamesList r).length = 5 := rfl
  have hdecomp := playedCells_set_decomp (gamesList r) j (by omega) hejm
  have hgset : gamesList (setSlot r j (Cell.num 150))
      = (gamesList r).set j (Cell.num 150) := gamesList_setSlot r j _ hj5
  refine ⟨hresult, ?_, setSlot_preserves r j _, hgset, ⟨hejm, hbefore⟩, ?_, ?_, ?_⟩
  · intro m hmne
    exact List.getElem?_set_ne (Ne.symm hmne)
  · rw [playedGames, hgset]
    exact hdecomp.1
  · exact hdecomp.2
  · -- the re-query
    set r' := setSlot r j (Cell.num 150) with hr'
    have hpres := setSlot_preserves r j (Cell.num 150)
    have hp' : r'.player = Cell.str ps := by rw [hpres.2.1, hp]
    have hseason' : cellEqInt r'.season s = true := by rw [hpres.2.2.1]; exact hseason
    have hw3' : safeInt r'.week 0 = 3 := by rw [hpres.2.2.2.1]; exact hw3
    have hws' : weekSkip (some 3) r' = false := by
      unfold weekSkip
      rw [hw3']
      simp
    have hkey' : playerKey r' = some (pyStrip ps) := by
      rw [playerKey, hp']
      dsimp only
      rw [if_neg hps'ne]
    have hfor' : psRowFor s (some 3) (pyStrip ps) r' = true := by
      unfold psRowFor
      rw [hseason', hws', hkey']
      simp
    have hrs'i : (rs.set i r')[i]? = some r' := List.getElem?_set_self hilt
    -- no other row of the written store files under this player's key
    have hother' : ∀ m y, m ≠ i → (rs.set i r')[m]? = some y →
        psRowFor s (some 3) (pyStrip ps) y = false := by
      intro m y hmne hmy
      rw [List.getElem?_set_ne (Ne.symm hmne)] at hmy
      by_cases hfor : psRowFor s (some 3) (pyStrip ps) y = true
      · exfalso
        have hact := psRowFor_imp_active _ _ _ _ hfor
        have hkeyy : playerKey y = some (pyStrip ps) := by
          unfold psRowFor at hfor
          simp only [Bool.and_eq_true] at hfor
          exact eq_of_beq hfor.2
        cases hpy : y.player with
        | str qs =>
          rw [playerKey, hpy] at hkeyy
          dsimp only at hkeyy
          by_cases hqs : qs = ""
          · rw [if_pos hqs] at hkeyy; cases hkeyy
          · rw [if_neg hqs] at hkeyy
            have hqs2 : pyStrip qs = pyStrip ps := by
              injection hkeyy
            have hnm := hothers m y hmne hmy hact qs hpy
            rw [hqs2, hm] at hnm
            cases hnm
        | blank => rw [playerKey, hpy] at hkeyy; cases hkeyy
        | num q => rw [playerKey, hpy] at hkeyy; cases hkeyy
        | boolv b => rw [playerKey, hpy] at hkeyy; cases hkeyy
      · exact eq_false_of_ne_true hfor
    -- the player_data entry at this player's key collects the written row alone
    have hfilter : (rs.set i r').filter (psRowFor s (some 3) (pyStrip ps)) = [r'] :=
      filter_single _ _ i r' hrs'i hfor' hother'
    have hdentry : alookup ((rs.set i r').foldl (psStep s (some 3)) []) (pyStrip ps)
        = some (psUpdate r' (psInit (psTeamOf r'))) := by
      rw [psFold_alookup, hfilter]
      rfl
    rcases alookup_split _ _ _ hdentry with ⟨l1, l2, hdec, hl1ne⟩
    -- dictionary entries before it never match the queried name
    have hl1skip : ∀ e2 ∈ l1, nameMatch p e2.1 = false := by
      intro e2 he2
      have hkk : e2.1 ∈ akeys ((rs.set i r').foldl (psStep s (some 3)) []) := by
        rw [hdec]
        unfold akeys
        rw [List.map_append]
        exact List.mem_append_left _ (List.mem_map_of_mem _ he2)
      rcases psFold_akeys_sub s (some 3) (rs.set i r') [] e2.1 hkk with
        h0 | ⟨y, hy, hya, hyk⟩
      · cases h0
      · rcases List.mem_iff_getElem?.mp hy with ⟨m, hm'⟩
        by_cases hmi : m = i
        · subst hmi
          rw [hrs'i] at hm'
          have hyr : r' = y := by injection hm'
          rw [← hyr, hkey'] at hyk
          have hke : pyStrip ps = e2.1 := by injection hyk
          exfalso
          have hne := hl1ne e2 he2
          rw [← hke] at hne
          simp at hne
        · rw [List.getElem?_set_ne (Ne.symm hmi)] at hm'
          cases hpy : y.player with
          | str qs =>
            have hnm := hothers m y hmi hm' hya qs hpy
            rw [playerKey, hpy] at hyk
            dsimp only at hyk
            by_cases hqs : qs = ""
            · rw [if_pos hqs] at hyk; cases hyk
            · rw [if_neg hqs] at hyk
              have hqe : pyStrip qs = e2.1 := by injection hyk
              rw [hqe] at hnm
              exact hnm
          | blank => rw [playerKey, hpy] at hyk; cases hyk
          | num q => rw [playerKey, hpy] at hyk; cases hyk
          | boolv b => rw [playerKey, hpy] at hyk; cases hyk
    -- the final scan returns this player's week view
    have hweeks : (psUpdate r' (psInit (psTeamOf r'))).weeks
        = [⟨safeInt r'.week 0, playedGames r', rowWeekAvg r',
            isAbsentCell r'.absentCell⟩] := by
      rw [psUpdate_weeks]
      rfl
    have hfind : (psUpdate r' (psInit (psTeamOf r'))).weeks.find?
        (fun we => we.week == (3 : ℤ))
        = some ⟨safeInt r'.week 0, playedGames r', rowWeekAvg r',
            isAbsentCell r'.absentCell⟩ := by
      rw [hweeks]
      simp [List.find?, hw3']
    have hscan := psFin_scan p 3 hq l1 hl1skip (pyStrip ps)
      (psUpdate r' (psInit (psTeamOf r'))) l2
      ⟨safeInt r'.week 0, playedGames r', rowWeekAvg r', isAbsentCell r'.absentCell⟩
      hm hfind
    unfold getPlayerScores
    dsimp only
    rw [hdec, hscan]
    dsimp only
    rw [psUpdate_team]
    have hteam2 : (psInit (psTeamOf r')).team = psTeamOf r' := rfl
    rw [hteam2, psTeamOf, hpres.1, hpres.2.2.2.2.2.1]

/-- The single row of the C9 witness store: player "Cyd", season 1,
week 3, game 1 played, slots 2-5 empty. -/
def sampleC9row : Row := sampleRow "Red" "Cyd" 1 3 [100] false false none

/-- The C9 witness store: another player's row in the same week before
the target row, and the target player's row of another week after it. -/
def sampleC9 : List Row :=
  [ sampleRow "Red" "Ann" 1 3 [120] false false none
  , sampleC9row
  , sampleRow "Red" "Cyd" 1 2 [90] false false none ]

theorem add_score_roundtrip_frame_witness :
    addScore sampleC9 "Cyd" 150 (some 3) 1
      = (true, sampleC9.set 1 (setSlot sampleC9row 1 (Cell.num 150))) ∧
    getPlayerScores (sampleC9.set 1 (setSlot sampleC9row 1 (Cell.num 150))) 1
        (some "Cyd") (some 3)
      = PSOut.weekView (pyStrip "Cyd")
          (if cellTruthy sampleC9row.team then pyStrip (pyStr sampleC9row.team)
           else "Unknown")
          (playedGames (setSlot sampleC9row 1 (Cell.num 150)))
          (rowWeekAvg (setSlot sampleC9row 1 (Cell.num 150)))
          (isAbsentCell sampleC9row.absentCell) := by
  have h := add_score_roundtrip_frame sampleC9 "Cyd" 1 1 1 sampleC9row "Cyd"
    (by with_unfolding_all decide) (by with_unfolding_all decide)
    (by with_unfolding_all decide) (by with_unfolding_all decide)
    (by with_unfolding_all decide) (by with_unfolding_all decide)
    (by
      intro m rm hmne hget hact qs hqs
      rcases m with _ | _ | _ | m
      · have hr : rm = sampleRow "Red" "Ann" 1 3 [120] false false none := by
          rw [show sampleC9[0]?
              = some (sampleRow "Red" "Ann" 1 3 [120] false false none) from rfl] at hget
          injection hget with hh
          exact hh.symm
        rw [hr] at hqs
        have hqs2 : Cell.str "Ann" = Cell.str qs := hqs
        injection hqs2 with hq2
        rw [← hq2]
        with_unfolding_all decide
      · exact absurd rfl hmne
      · have hr : rm = sampleRow "Red" "Cyd" 1 2 [90] false false none := by
          rw [show sampleC9[2]?
              = some (sampleRow "Red" "Cyd" 1 2 [90] false false none) from rfl] at hget
          injection hget with hh
          exact hh.symm
        rw [hr] at hact
        exact absurd hact (by with_unfolding_all decide)
      · simp [sampleC9] at hget)
  exact ⟨h.1, h.2.2.2.2.2.2.2⟩

/-! ## C4/C6: the weekly-summary matchup comparison -/

/-- Exception-free version of `wsAllStep`, agreeing with it on rows whose
truthy team cells are strings. -/
def wsAllStepP (s : ℤ) (acc : List (String × List (ℤ × List ℚ))) (r : Row) :
    List (String × List (ℤ × List ℚ)) :=
  if ¬ cellEqInt r.season s then acc
  else if ¬ cellTruthy r.team then acc
  else if isSubCell r.subCell then acc
  else
    match r.team with
    | Cell.str t =>
      let team := pyStrip t
      let w := safeInt r.week 0
      if 0 < w then
        aadjust (aensure acc team []) team (fun m =>
          (aadjust (aensure m w zeroSlots) w (fun tt => addSlots tt (slotContrib r))))
      else acc
    | _ => acc

/-- Exception-free version of `wsWeekStep`. -/
def wsWeekStepP (s : ℤ) (teamFound : String) (acc : List (ℤ × WSInfo)) (r : Row) :
    List (ℤ × WSInfo) :=
  if ¬ cellEqInt r.season s then acc
  else if ¬ cellTruthy r.team then acc
  else
    match r.team with
    | Cell.str t =>
      if pyStrip t ≠ teamFound then acc
      else if isSubCell r.subCell then acc
      else
        let w := safeInt r.week 0
        if 0 < w then
          let initInfo : WSInfo :=
            { opponent := if cellTruthy r.oppCell then pyStrip (pyStr r.oppCell)
                else "Unknown"
              gameTotals := zeroSlots, oppGameTotals := zeroSlots
              wins := 0, losses := 0, ties := 0, avg := 0, pinsFor := 0
              pinsAgainst := 0 }
          aadjust (aensure acc w initInfo) w (fun i =>
            { i with gameTotals := addSlots i.gameTotals (slotContrib r) })
        else acc
    | _ => acc

/-- Exception-free version of `wsCountStep`. -/
def wsCountStepP (s : ℤ) (teamFound : String) (w : ℤ) (acc : ℕ) (r : Row) : ℕ :=
  if ¬ cellEqInt r.season s then acc
  else if ¬ cellTruthy r.team then acc
  else
    match r.team with
    | Cell.str t =>
      if pyStrip t ≠ teamFound then acc
      else if safeInt r.week 0 ≠ w then acc
      else if isSubCell r.subCell then acc
      else acc + (playedGames r).length
    | _ => acc

/-- Exception-free version of `wsFinalizeEntry`. -/
def wsFinalizeEntryP (rs : List Row) (s : ℤ) (teamFound : String)
    (w : ℤ) (e : WSInfo) : ℤ × WSInfo :=
  let teamTotal := e.gameTotals.sum
  let oppTotal := e.oppGameTotals.sum
  let totalGames := rs.foldl (wsCountStepP s teamFound w) 0
  let avg : ℚ := if 0 < totalGames then teamTotal / (totalGames : ℚ) else 0
  (w, { e with avg := avg, pinsFor := truncQ teamTotal, pinsAgainst := truncQ oppTotal })

/-- A record set is strip-safe for season `s` when every same-season row
with a truthy team cell has a *string* team cell (exactly the condition
under which none of the `row_team.strip()` calls raises). -/
def stripSafe (rs : List Row) (s : ℤ) : Prop :=
  ∀ r ∈ rs, cellEqInt r.season s = true → cellTruthy r.team = true →
    ∃ t, r.team = Cell.str t

theorem except_bind_ok {α β : Type} (x : α) (f : α → Except String β) :
    ((Except.ok x : Except String α) >>= f) = f x := rfl

theorem wsAllStep_eq_pure (s : ℤ) (acc : List (String × List (ℤ × List ℚ)))
    (r : Row) (h : cellEqInt r.season s = true → cellTruthy r.team = true →
      ∃ t, r.team = Cell.str t) :
    wsAllStep s acc r = Except.ok (wsAllStepP s acc r) := by
  by_cases h1 : (cellEqInt r.season s : Bool) = true
  · by_cases h2 : (cellTruthy r.team : Bool) = true
    · rcases h h1 h2 with ⟨t, ht⟩
      rw [ht] at h2
      by_cases h3 : (isSubCell r.subCell : Bool) = true
      · simp only [wsAllStep, wsAllStepP, h1, h2, h3, ht]
        simp
        rfl
      · by_cases hw : 0 < safeInt r.week 0
        · simp [wsAllStep, wsAllStepP, h1, h2, eq_false_of_ne_true h3, ht,
            cellStrip, hw, Except.bind, except_bind_ok]
        · simp [wsAllStep, wsAllStepP, h1, h2, eq_false_of_ne_true h3, ht,
            cellStrip, hw, Except.bind, except_bind_ok]
    · simp [wsAllStep, wsAllStepP, h1, eq_false_of_ne_true h2]
      rfl
  · simp [wsAllStep, wsAllStepP, eq_false_of_ne_true h1]
    rfl

theorem wsWeekStep_eq_pure (s : ℤ) (teamFound : String) (acc : List (ℤ × WSInfo))
    (r : Row) (h : cellEqInt r.season s = true → cellTruthy r.team = true →
      ∃ t, r.team = Cell.str t) :
    wsWeekStep s teamFound acc r = Except.ok (wsWeekStepP s teamFound acc r) := by
  by_cases h1 : (cellEqInt r.season s : Bool) = true
  · by_cases h2 : (cellTruthy r.team : Bool) = true
    · rcases h h1 h2 with ⟨t, ht⟩
      rw [ht] at h2
      by_cases h4 : pyStrip t ≠ teamFound
      · simp [wsWeekStep, wsWeekStepP, h1, h2, ht, cellStrip, h4, Except.bind,
          except_bind_ok]
        rfl
      · have h4' : pyStrip t = teamFound := not_not.mp h4
        by_cases h3 : (isSubCell r.subCell : Bool) = true
        · simp [wsWeekStep, wsWeekStepP, h1, h2, ht, cellStrip, h4', h3,
            Except.bind, except_bind_ok]
        · by_cases hw : 0 < safeInt r.week 0
          · simp [wsWeekStep, wsWeekStepP, h1, h2, eq_false_of_ne_true h3, ht,
              cellStrip, h4', hw, Except.bind, except_bind_ok]
            rfl
          · simp [wsWeekStep, wsWeekStepP, h1, h2, eq_false_of_ne_true h3, ht,
              cellStrip, h4', hw, Except.bind, except_bind_ok]
    · simp [wsWeekStep, wsWeekStepP, h1, eq_false_of_ne_true h2]
      rfl
  · simp [wsWeekStep, wsWeekStepP, eq_false_of_ne_true h1]
    rfl

theorem wsCountStep_eq_pure (s : ℤ) (teamFound : String) (w : ℤ) (acc : ℕ)
    (r : Row) (h : cellEqInt r.season s = true → cellTruthy r.team = true →
      ∃ t, r.team = Cell.str t) :
    wsCountStep s teamFound w acc r
      = Except.ok (wsCountStepP s teamFound w acc r) := by
  by_cases h1 : (cellEqInt r.season s : Bool) = true
  · by_cases h2 : (cellTruthy r.team : Bool) = true
    · rcases h h1 h2 with ⟨t, ht⟩
      rw [ht] at h2
      by_cases h4 : pyStrip t ≠ teamFound
      · simp [wsCountStep, wsCountStepP, h1, h2, ht, cellStrip, h4, Except.bind,
          except_bind_ok]
        rfl
      · have h4' : pyStrip t = teamFound := not_not.mp h4
        by_cases h5 : safeInt r.week 0 ≠ w
        · simp [wsCountStep, wsCountStepP, h1, h2, ht, cellStrip, h4', h5,
            Except.bind, except_bind_ok]
        · have h5' : safeInt r.week 0 = w := not_not.mp h5
          by_cases h3 : (isSubCell r.subCell : Bool) = true
          · simp [wsCountStep, wsCountStepP, h1, h2, ht, cellStrip, h4', h5', h3,
              Except.bind, except_bind_ok]
          · simp [wsCountStep, wsCountStepP, h1, h2, eq_false_of_ne_true h3, ht,
              cellStrip, h4', h5', Except.bind, except_bind_ok]
            rfl
    · simp [wsCountStep, wsCountStepP, h1, eq_false_of_ne_true h2]
      rfl
  · simp [wsCountStep, wsCountStepP, eq_false_of_ne_true h1]
    rfl

theorem foldlM_eq_pure {α β : Type} (fM : β → α → Except String β)
    (fP : β → α → β) :
    ∀ (l : List α), (∀ b r', r' ∈ l → fM b r' = Except.ok (fP b r')) →
      ∀ b : β, l.foldlM fM b = Except.ok (l.foldl fP b) := by
  intro l
  induction l with
  | nil => intro _ b; rfl
  | cons r t ih =>
    intro h b
    rw [List.foldlM_cons, h b r (List.mem_cons_self r t), except_bind_ok]
    exact ih (fun b' r' hr' => h b' r' (List.mem_cons_of_mem _ hr')) (fP b r)

theorem mapM_eq_pure {β γ : Type} (fM : β → Except String γ) (fP : β → γ)
    (h : ∀ b, fM b = Except.ok (fP b)) :
    ∀ l : List β, l.mapM fM = Except.ok (l.map fP) := by
  intro l
  induction l with
  | nil => rfl
  | cons b t ih =>
    rw [List.mapM_cons, h b, except_bind_ok, ih, except_bind_ok]
    rfl

theorem wsFinalizeEntry_eq_pure (rs : List Row) (s : ℤ) (teamFound : String)
    (hsafe : stripSafe rs s) (we : ℤ × WSInfo) :
    wsFinalizeEntry rs s teamFound we
      = Except.ok (wsFinalizeEntryP rs s teamFound we.1 we.2) := by
  unfold wsFinalizeEntry wsFinalizeEntryP
  have hc := foldlM_eq_pure (wsCountStep s teamFound we.1) (wsCountStepP s teamFound we.1)
    rs (fun b r' hr' => wsCountStep_eq_pure s teamFound we.1 b r'
      (fun ha hb => hsafe r' hr' ha hb)) 0
  rw [hc, except_bind_ok]
  rfl

/-- The weekly summary as its pure pipeline (the value
`get_team_weekly_summary` computes when no `AttributeError` occurs). -/
def weeklySummarySpec (rs : List Row) (s : ℤ) (teamFound : String) :
    List (ℤ × WSInfo) :=
  let allT := rs.foldl (wsAllStepP s) []
  let wd := rs.foldl (wsWeekStepP s teamFound) []
  let wd1 := wd.map (fun we => (we.1, wsResolve allT we.1 we.2))
  wd1.map (fun we => wsFinalizeEntryP rs s teamFound we.1 we.2)

theorem getTeamWeeklySummary_ok (rs : List Row) (s : ℤ) (tq teamFound : String)
    (hsafe : stripSafe rs s) (hfound : wsTeamFound rs tq = some teamFound) :
    getTeamWeeklySummary rs s tq
      = Except.ok (WSOut.summary teamFound s (weeklySummarySpec rs s teamFound)) := by
  unfold getTeamWeeklySummary
  rw [hfound]
  dsimp only
  have hAll := foldlM_eq_pure (wsAllStep s) (wsAllStepP s) rs
    (fun b r' hr' => wsAllStep_eq_pure s b r' (fun ha hb => hsafe r' hr' ha hb)) []
  have hWd := foldlM_eq_pure (wsWeekStep s teamFound) (wsWeekStepP s teamFound) rs
    (fun b r' hr' => wsWeekStep_eq_pure s teamFound b r'
      (fun ha hb => hsafe r' hr' ha hb)) []
  rw [hAll, except_bind_ok, hWd, except_bind_ok]
  have hFin := mapM_eq_pure (wsFinalizeEntry rs s teamFound)
    (fun we => wsFinalizeEntryP rs s teamFound we.1 we.2)
    (wsFinalizeEntry_eq_pure rs s teamFound hsafe)
  rw [hFin _, except_bind_ok]
  rfl

/-! ## C4/C6: the slot-comparison rule -/

/-- The spec's slot rule, stated directly: the compared slots are those
where either side's total is positive; among them `>` is a win, `<` a
loss and `=` a tie (a 0-0 slot is skipped, not a tie). -/
def specWLT (own opp : List ℚ) : WLT :=
  let cmp := (own.zip opp).filter (fun p => decide (0 < p.1) || decide (0 < p.2))
  ⟨cmp.countP (fun p => decide (p.2 < p.1)),
   cmp.countP (fun p => decide (p.1 < p.2)),
   cmp.countP (fun p => decide (p.1 = p.2))⟩

theorem compareSlots_fold (l : List (ℚ × ℚ)) (a : WLT) :
    l.foldl (fun a p =>
      if 0 < p.1 ∨ 0 < p.2 then
        if p.2 < p.1 then { a with wins := a.wins + 1 }
        else if p.1 < p.2 then { a with losses := a.losses + 1 }
        else { a with ties := a.ties + 1 }
      else a) a
    = ⟨a.wins + ((l.filter (fun p => decide (0 < p.1) || decide (0 < p.2))).countP
          (fun p => decide (p.2 < p.1))),
       a.losses + ((l.filter (fun p => decide (0 < p.1) || decide (0 < p.2))).countP
          (fun p => decide (p.1 < p.2))),
       a.ties + ((l.filter (fun p => decide (0 < p.1) || decide (0 < p.2))).countP
          (fun p => decide (p.1 = p.2)))⟩ := by
  induction l generalizing a with
  | nil => simp
  | cons x t ih =>
    rw [List.foldl_cons]
    by_cases h1 : 0 < x.1 ∨ 0 < x.2
    · have hb : (decide (0 < x.1) || decide (0 < x.2)) = true := by
        rcases h1 with h | h <;> simp [h]
      simp only [List.filter_cons, hb, if_true]
      by_cases h2 : x.2 < x.1
      · rw [if_pos h1, if_pos h2, ih]
        have hne : ¬ (x.1 < x.2) := lt_asymm h2
        have hne2 : ¬ (x.1 = x.2) := ne_of_gt h2
        simp only [List.countP_cons, decide_eq_true_eq, h2, hne, hne2,
          if_true, if_false, WLT.mk.injEq]
        refine ⟨by omega, by omega, by omega⟩
      · by_cases h3 : x.1 < x.2
        · rw [if_pos h1, if_neg h2, if_pos h3, ih]
          have hne2 : ¬ (x.1 = x.2) := ne_of_lt h3
          simp only [List.countP_cons, decide_eq_true_eq, h2, h3, hne2,
            if_true, if_false, WLT.mk.injEq]
          refine ⟨by omega, by omega, by omega⟩
        · have heq : x.1 = x.2 := le_antisymm (not_lt.mp h2) (not_lt.mp h3)
          rw [if_pos h1, if_neg h2, if_neg h3, ih]
          simp only [List.countP_cons, decide_eq_true_eq, h2, h3, heq,
            lt_self_iff_false, if_true, if_false, WLT.mk.injEq]
          refine ⟨by omega, by omega, by omega⟩
    · obtain ⟨ha, hc⟩ := not_or.mp h1
      have hb : (decide (0 < x.1) || decide (0 < x.2)) = false := by simp [ha, hc]
      rw [if_neg h1, ih]
      simp only [List.filter_cons, hb, Bool.false_eq_true, if_false]

/-- The comparison loop of the source computes exactly the spec's slot
rule. -/
theorem compareSlots_eq_specWLT (own opp : List ℚ) :
    compareSlots own opp = specWLT own opp := by
  rw [compareSlots, compareSlots_fold]
  simp [specWLT]

theorem specWLT_symm (a b : List ℚ) :
    (specWLT a b).wins = (specWLT b a).losses ∧
    (specWLT a b).losses = (specWLT b a).wins ∧
    (specWLT a b).ties = (specWLT b a).ties := by
  have hz : b.zip a = (a.zip b).map Prod.swap := (List.zip_swap a b).symm
  refine ⟨?_, ?_, ?_⟩
  · simp only [specWLT, hz, List.countP_filter, List.countP_map]
    refine List.countP_congr ?_
    intro p _
    simp only [Function.comp_apply, Prod.fst_swap, Prod.snd_swap]
    rw [Bool.or_comm]
  · simp only [specWLT, hz, List.countP_filter, List.countP_map]
    refine List.countP_congr ?_
    intro p _
    simp only [Function.comp_apply, Prod.fst_swap, Prod.snd_swap]
    rw [Bool.or_comm]
  · simp only [specWLT, hz, List.countP_filter, List.countP_map]
    refine List.countP_congr ?_
    intro p _
    simp only [Function.comp_apply, Prod.fst_swap, Prod.snd_swap]
    have hd : decide (p.1 = p.2) = decide (p.2 = p.1) := decide_eq_decide.mpr eq_comm
    rw [Bool.or_comm, hd]

/-- **C4.** In `get_team_weekly_summary`, the slot rule (compare slot
totals 1..5 where either side is positive: `>` win, `<` loss, `=` tie,
0-0 skipped) governs a week's wins/losses/ties exactly when the stored
opponent label resolves to an `all_teams` key AND that team has game data
for the very same week; when the label resolves but the opponent has no
data that week, the entry keeps zero wins, losses and ties (the rule is
not applied against all-zero totals), and the finalisation pass never
alters the outcome fields. -/
theorem weekly_slot_rule_needs_opponent_week_data
    (rs : List Row) (s : ℤ) (tq teamFound : String)
    (hsafe : stripSafe rs s) (hfound : wsTeamFound rs tq = some teamFound) :
    getTeamWeeklySummary rs s tq
      = Except.ok (WSOut.summary teamFound s (weeklySummarySpec rs s teamFound)) ∧
    (∀ w : ℤ, ∀ e : WSInfo, ∀ p og,
      (rs.foldl (wsAllStepP s) []).find? (fun q => nameMatch e.opponent q.1) = some p →
      alookup p.2 w = some og →
      (wsResolve (rs.foldl (wsAllStepP s) []) w e).wins = (specWLT e.gameTotals og).wins ∧
      (wsResolve (rs.foldl (wsAllStepP s) []) w e).losses = (specWLT e.gameTotals og).losses ∧
      (wsResolve (rs.foldl (wsAllStepP s) []) w e).ties = (specWLT e.gameTotals og).ties ∧
      (wsResolve (rs.foldl (wsAllStepP s) []) w e).oppGameTotals = og) ∧
    (∀ w : ℤ, ∀ e : WSInfo,
      ((rs.foldl (wsAllStepP s) []).find? (fun q => nameMatch e.opponent q.1) = none ∨
       (∃ p, (rs.foldl (wsAllStepP s) []).find? (fun q => nameMatch e.opponent q.1) = some p ∧
         alookup p.2 w = none)) →
      wsResolve (rs.foldl (wsAllStepP s) []) w e = e) ∧
    (∀ w : ℤ, ∀ e : WSInfo,
      (wsFinalizeEntryP rs s teamFound w e).2.wins = e.wins ∧
      (wsFinalizeEntryP rs s teamFound w e).2.losses = e.losses ∧
      (wsFinalizeEntryP rs s teamFound w e).2.ties = e.ties) := by
  refine ⟨getTeamWeeklySummary_ok rs s tq teamFound hsafe hfound, ?_, ?_, ?_⟩
  · intro w e p og hf hl
    rw [wsResolve, hf]
    dsimp only
    rw [hl]
    dsimp only
    rw [compareSlots_eq_specWLT]
    exact ⟨rfl, rfl, rfl, rfl⟩
  · intro w e h
    rcases h with hf | ⟨p, hf, hl⟩
    · rw [wsResolve, hf]
    · rw [wsResolve, hf]
      dsimp only
      rw [hl]
  · intro w e
    exact ⟨rfl, rfl, rfl⟩

/-- Rows for the C4 counterexample and witness: team `A` bowls in week 1
against `B`; `B` has season data only in week 2, so `B` is a key of
`all_teams` (the opponent label resolves) but has no week-1 data. -/
def rsC4 : List Row :=
  [ sampleRow "A" "P1" 1 1 [150] false false (some "B")
  , sampleRow "B" "P2" 1 2 [140] false false (some "A") ]

/-- **C4, counterexample.** Against the frozen claim: in `rsC4`, week 1 of
team `A` has a resolved opponent (`"B"` matches the `all_teams` key `B`),
and the slot rule on `A`'s totals `[150,0,0,0,0]` versus `B`'s (absent,
hence all-zero) week-1 totals would give one win; yet the summary reports
zero wins, zero losses and zero ties for that week. -/
theorem resolved_opponent_without_week_data_scores_nothing :
    (∃ e : WSInfo,
      getTeamWeeklySummary rsC4 1 "A"
        = Except.ok (WSOut.summary "A" 1 [(1, e)]) ∧
      e.opponent = "B" ∧
      ((rsC4.foldl (wsAllStepP 1) []).find?
          (fun q => nameMatch e.opponent q.1)).map Prod.fst = some "B" ∧
      e.gameTotals = [150, 0, 0, 0, 0] ∧
      e.wins = 0 ∧ e.losses = 0 ∧ e.ties = 0 ∧
      (specWLT [150, 0, 0, 0, 0] [0, 0, 0, 0, 0]).wins = 1) := by
  refine ⟨⟨"B", [150, 0, 0, 0, 0], zeroSlots, 0, 0, 0, 150, 150, 0⟩, ?_, ?_, ?_, ?_, ?_, ?_, ?_, ?_⟩
  · with_unfolding_all decide
  · rfl
  · with_unfolding_all decide
  · with_unfolding_all decide
  · rfl
  · rfl
  · rfl
  · with_unfolding_all decide

theorem weekly_slot_rule_needs_opponent_week_data_witness :
    getTeamWeeklySummary rsC4 1 "A"
      = Except.ok (WSOut.summary "A" 1 (weeklySummarySpec rsC4 1 "A")) ∧
    (∀ w : ℤ, ∀ e : WSInfo, ∀ p og,
      (rsC4.foldl (wsAllStepP 1) []).find? (fun q => nameMatch e.opponent q.1) = some p →
      alookup p.2 w = some og →
      (wsResolve (rsC4.foldl (wsAllStepP 1) []) w e).wins = (specWLT e.gameTotals og).wins ∧
      (wsResolve (rsC4.foldl (wsAllStepP 1) []) w e).losses = (specWLT e.gameTotals og).losses ∧
      (wsResolve (rsC4.foldl (wsAllStepP 1) []) w e).ties = (specWLT e.gameTotals og).ties ∧
      (wsResolve (rsC4.foldl (wsAllStepP 1) []) w e).oppGameTotals = og) ∧
    (∀ w : ℤ, ∀ e : WSInfo,
      ((rsC4.foldl (wsAllStepP 1) []).find? (fun q => nameMatch e.opponent q.1) = none ∨
       (∃ p, (rsC4.foldl (wsAllStepP 1) []).find? (fun q => nameMatch e.opponent q.1) = some p ∧
         alookup p.2 w = none)) →
      wsResolve (rsC4.foldl (wsAllStepP 1) []) w e = e) ∧
    (∀ w : ℤ, ∀ e : WSInfo,
      (wsFinalizeEntryP rsC4 1 "A" w e).2.wins = e.wins ∧
      (wsFinalizeEntryP rsC4 1 "A" w e).2.losses = e.losses ∧
      (wsFinalizeEntryP rsC4 1 "A" w e).2.ties = e.ties) :=
  weekly_slot_rule_needs_opponent_week_data rsC4 1 "A" "A"
    (by intro r hr
        fin_cases hr
        · exact fun _ _ => ⟨"A", rfl⟩
        · exact fun _ _ => ⟨"B", rfl⟩)
    (by with_unfolding_all decide)

theorem nodup_akeys_wsAllStepP (s : ℤ) (acc : List (String × List (ℤ × List ℚ)))
    (r : Row) (h : (akeys acc).Nodup) : (akeys (wsAllStepP s acc r)).Nodup := by
  unfold wsAllStepP
  repeat' split
  all_goals try dsimp only
  repeat' split
  all_goals first
  | exact h
  | (rw [akeys_aadjust]; exact nodup_akeys_aensure _ _ _ h)

theorem nodup_akeys_wsAllFold (s : ℤ) (rs : List Row) :
    ∀ acc, (akeys acc).Nodup → (akeys (rs.foldl (wsAllStepP s) acc)).Nodup := by
  induction rs with
  | nil => exact fun acc h => h
  | cons r t ih => exact fun acc h => ih _ (nodup_akeys_wsAllStepP s acc r h)

/-- One-row preservation of the agreement between the queried team's
`weekly_data` game totals and the same team's entry of `all_teams`. -/
theorem wsAgree_step (s : ℤ) (tf : String) (w : ℤ) (r : Row)
    (accW : List (ℤ × WSInfo)) (accA : List (String × List (ℤ × List ℚ)))
    (hR : Option.map WSInfo.gameTotals (alookup accW w)
        = (alookup accA tf).bind (fun m => alookup m w)) :
    Option.map WSInfo.gameTotals (alookup (wsWeekStepP s tf accW r) w)
      = (alookup (wsAllStepP s accA r) tf).bind (fun m => alookup m w) := by
  unfold wsWeekStepP wsAllStepP
  by_cases h1 : cellEqInt r.season s = true
  case neg => rw [if_pos h1, if_pos h1]; exact hR
  rw [if_neg (not_not_intro h1), if_neg (not_not_intro h1)]
  by_cases h2 : cellTruthy r.team = true
  case neg => rw [if_pos h2, if_pos h2]; exact hR
  rw [if_neg (not_not_intro h2), if_neg (not_not_intro h2)]
  by_cases hsub : isSubCell r.subCell = true
  · cases hteam : r.team with
    | blank => dsimp only; rw [ite_self]; exact hR
    | num q => dsimp only; rw [ite_self]; exact hR
    | boolv b => dsimp only; rw [ite_self]; exact hR
    | str t =>
      dsimp only
      by_cases ht : pyStrip t = tf
      · rw [if_neg (not_not_intro ht), if_pos hsub, if_pos hsub]
        exact hR
      · rw [if_pos ht, if_pos hsub]
        exact hR
  · cases hteam : r.team with
    | blank => dsimp only; rw [ite_self]; exact hR
    | num q => dsimp only; rw [ite_self]; exact hR
    | boolv b => dsimp only; rw [ite_self]; exact hR
    | str t =>
      dsimp only
      by_cases ht : pyStrip t = tf
      · rw [if_neg (not_not_intro ht), if_neg hsub, if_neg hsub]
        by_cases hw0 : 0 < safeInt r.week 0
        · rw [if_pos hw0, if_pos hw0, ht]
          by_cases hweq : safeInt r.week 0 = w
          · rw [hweq]
            rw [alookup_aadjust_aensure_same, alookup_aadjust_aensure_same]
            simp only [Option.map_some', Option.some_bind]
            rw [alookup_aadjust_aensure_same]
            cases hA : alookup accA tf with
            | none =>
              rw [hA] at hR
              simp only [Option.none_bind] at hR
              cases hW : alookup accW w with
              | some i => rw [hW] at hR; simp at hR
              | none => rfl
            | some m =>
              rw [hA] at hR
              simp only [Option.some_bind] at hR
              simp only [Option.getD_some]
              cases hmw : alookup m w with
              | none =>
                rw [hmw] at hR
                cases hW : alookup accW w with
                | some i => rw [hW] at hR; simp at hR
                | none => rfl
              | some gt =>
                rw [hmw] at hR
                cases hW : alookup accW w with
                | none => rw [hW] at hR; simp at hR
                | some i =>
                  rw [hW] at hR
                  simp only [Option.map_some', Option.some.injEq] at hR
                  simp only [Option.getD_some, Option.map_some', Option.some.injEq]
                  rw [hR]
          · have hbw : ((safeInt r.week 0 : ℤ) == w) = false :=
              beq_eq_false_iff_ne.mpr hweq
            rw [alookup_aadjust_aensure_ne _ _ _ _ _ hbw]
            rw [alookup_aadjust_aensure_same]
            simp only [Option.some_bind]
            rw [alookup_aadjust_aensure_ne _ _ _ _ _ hbw]
            cases hA : alookup accA tf with
            | none =>
              rw [hA] at hR
              simp only [Option.none_bind] at hR
              simp only [Option.getD_none, alookup_nil]
              exact hR
            | some m =>
              rw [hA] at hR
              simp only [Option.some_bind] at hR
              simp only [Option.getD_some]
              exact hR
        · rw [if_neg hw0, if_neg hw0]
          exact hR
      · rw [if_pos ht, if_neg hsub]
        by_cases hw0 : 0 < safeInt r.week 0
        · rw [if_pos hw0]
          have hbt : ((pyStrip t : String) == tf) = false := beq_eq_false_iff_ne.mpr ht
          rw [alookup_aadjust_aensure_ne _ _ _ _ _ hbt]
          exact hR
        · rw [if_neg hw0]
          exact hR

/-- The agreement, lifted to the two scans of the record set. -/
theorem wsAgree (s : ℤ) (tf : String) (w : ℤ) (rs : List Row) :
    ∀ (accW : List (ℤ × WSInfo)) (accA : List (String × List (ℤ × List ℚ))),
    Option.map WSInfo.gameTotals (alookup accW w)
      = (alookup accA tf).bind (fun m => alookup m w) →
    Option.map WSInfo.gameTotals (alookup (rs.foldl (wsWeekStepP s tf) accW) w)
      = (alookup (rs.foldl (wsAllStepP s) accA) tf).bind (fun m => alookup m w) := by
  induction rs with
  | nil => exact fun _ _ h => h
  | cons r t ih =>
    intro accW accA h
    exact ih _ _ (wsAgree_step s tf w r accW accA h)

/-- **C6.** Symmetry of the weekly matchup: if in week `w` team `A`'s
entry resolves (via `all_teams`) to team `B` and `B`'s entry resolves to
`A`, then `A`'s wins in the reported summary equal `B`'s losses, `A`'s
losses equal `B`'s wins, and their ties agree.  The hypotheses are the
code's own resolution conditions: each side's stored opponent label
`find?`-matches the other team's `all_teams` entry, and both weekly
entries exist. -/
theorem weekly_matchup_outcomes_symmetric
    (rs : List Row) (s : ℤ) (tqA tqB tA tB : String)
    (hsafe : stripSafe rs s)
    (hfA : wsTeamFound rs tqA = some tA)
    (hfB : wsTeamFound rs tqB = some tB)
    (w : ℤ) (eA eB : WSInfo) (mB mA : List (ℤ × List ℚ))
    (hA : alookup (rs.foldl (wsWeekStepP s tA) []) w = some eA)
    (hB : alookup (rs.foldl (wsWeekStepP s tB) []) w = some eB)
    (hrA : (rs.foldl (wsAllStepP s) []).find? (fun q => nameMatch eA.opponent q.1)
        = some (tB, mB))
    (hrB : (rs.foldl (wsAllStepP s) []).find? (fun q => nameMatch eB.opponent q.1)
        = some (tA, mA)) :
    ∃ esA esB,
      getTeamWeeklySummary rs s tqA = Except.ok (WSOut.summary tA s esA) ∧
      getTeamWeeklySummary rs s tqB = Except.ok (WSOut.summary tB s esB) ∧
      ∃ fA ∈ esA, ∃ fB ∈ esB,
        fA.1 = w ∧ fB.1 = w ∧
        fA.2.wins = fB.2.losses ∧ fA.2.losses = fB.2.wins ∧
        fA.2.ties = fB.2.ties := by
  have hnd : (akeys (rs.foldl (wsAllStepP s) [])).Nodup :=
    nodup_akeys_wsAllFold s rs [] List.nodup_nil
  have hlookB : alookup (rs.foldl (wsAllStepP s) []) tB = some mB :=
    alookup_of_mem_nodup _ _ _ hnd (List.mem_of_find?_eq_some hrA)
  have hlookA : alookup (rs.foldl (wsAllStepP s) []) tA = some mA :=
    alookup_of_mem_nodup _ _ _ hnd (List.mem_of_find?_eq_some hrB)
  have hagB := wsAgree s tB w rs [] [] rfl
  rw [hB, hlookB] at hagB
  simp only [Option.map_some', Option.some_bind] at hagB
  have hogB : alookup mB w = some eB.gameTotals := hagB.symm
  have hagA := wsAgree s tA w rs [] [] rfl
  rw [hA, hlookA] at hagA
  simp only [Option.map_some', Option.some_bind] at hagA
  have hogA : alookup mA w = some eA.gameTotals := hagA.symm
  have hresA : wsResolve (rs.foldl (wsAllStepP s) []) w eA
      = { eA with
          oppGameTotals := eB.gameTotals,
          wins := (compareSlots eA.gameTotals eB.gameTotals).wins,
          losses := (compareSlots eA.gameTotals eB.gameTotals).losses,
          ties := (compareSlots eA.gameTotals eB.gameTotals).ties } := by
    rw [wsResolve, hrA]
    dsimp only
    rw [hogB]
  have hresB : wsResolve (rs.foldl (wsAllStepP s) []) w eB
      = { eB with
          oppGameTotals := eA.gameTotals,
          wins := (compareSlots eB.gameTotals eA.gameTotals).wins,
          losses := (compareSlots eB.gameTotals eA.gameTotals).losses,
          ties := (compareSlots eB.gameTotals eA.gameTotals).ties } := by
    rw [wsResolve, hrB]
    dsimp only
    rw [hogA]
  refine ⟨weeklySummarySpec rs s tA, weeklySummarySpec rs s tB,
    getTeamWeeklySummary_ok rs s tqA tA hsafe hfA,
    getTeamWeeklySummary_ok rs s tqB tB hsafe hfB,
    wsFinalizeEntryP rs s tA w (wsResolve (rs.foldl (wsAllStepP s) []) w eA), ?_,
    wsFinalizeEntryP rs s tB w (wsResolve (rs.foldl (wsAllStepP s) []) w eB), ?_,
    rfl, rfl, ?_, ?_, ?_⟩
  · have h1 : ((w, eA) : ℤ × WSInfo) ∈ rs.foldl (wsWeekStepP s tA) [] :=
      alookup_mem _ _ _ hA
    have h2 := List.mem_map_of_mem
      (fun we : ℤ × WSInfo => (we.1, wsResolve (rs.foldl (wsAllStepP s) []) we.1 we.2)) h1
    have h3 := List.mem_map_of_mem
      (fun we : ℤ × WSInfo => wsFinalizeEntryP rs s tA we.1 we.2) h2
    simpa [weeklySummarySpec] using h3
  · have h1 : ((w, eB) : ℤ × WSInfo) ∈ rs.foldl (wsWeekStepP s tB) [] :=
      alookup_mem _ _ _ hB
    have h2 := List.mem_map_of_mem
      (fun we : ℤ × WSInfo => (we.1, wsResolve (rs.foldl (wsAllStepP s) []) we.1 we.2)) h1
    have h3 := List.mem_map_of_mem
      (fun we : ℤ × WSInfo => wsFinalizeEntryP rs s tB we.1 we.2) h2
    simpa [weeklySummarySpec] using h3
  · show (wsResolve (rs.foldl (wsAllStepP s) []) w eA).wins
      = (wsResolve (rs.foldl (wsAllStepP s) []) w eB).losses
    rw [hresA, hresB]
    dsimp only
    rw [compareSlots_eq_specWLT, compareSlots_eq_specWLT]
    exact (specWLT_symm eA.gameTotals eB.gameTotals).1
  · show (wsResolve (rs.foldl (wsAllStepP s) []) w eA).losses
      = (wsResolve (rs.foldl (wsAllStepP s) []) w eB).wins
    rw [hresA, hresB]
    dsimp only
    rw [compareSlots_eq_specWLT, compareSlots_eq_specWLT]
    exact (specWLT_symm eA.gameTotals eB.gameTotals).2.1
  · show (wsResolve (rs.foldl (wsAllStepP s) []) w eA).ties
      = (wsResolve (rs.foldl (wsAllStepP s) []) w eB).ties
    rw [hresA, hresB]
    dsimp only
    rw [compareSlots_eq_specWLT, compareSlots_eq_specWLT]
    exact (specWLT_symm eA.gameTotals eB.gameTotals).2.2

/-- C6 witness rows: `A` and `B` bowl each other in week 1. -/
def rsC6 : List Row :=
  [ sampleRow "A" "P1" 1 1 [150] false false (some "B")
  , sampleRow "B" "P2" 1 1 [140] false false (some "A") ]

theorem weekly_matchup_outcomes_symmetric_witness :
    ∃ esA esB,
      getTeamWeeklySummary rsC6 1 "A" = Except.ok (WSOut.summary "A" 1 esA) ∧
      getTeamWeeklySummary rsC6 1 "B" = Except.ok (WSOut.summary "B" 1 esB) ∧
      ∃ fA ∈ esA, ∃ fB ∈ esB,
        fA.1 = 1 ∧ fB.1 = 1 ∧
        fA.2.wins = fB.2.losses ∧ fA.2.losses = fB.2.wins ∧
        fA.2.ties = fB.2.ties :=
  weekly_matchup_outcomes_symmetric rsC6 1 "A" "B" "A" "B"
    (by intro r hr
        fin_cases hr
        · exact fun _ _ => ⟨"A", rfl⟩
        · exact fun _ _ => ⟨"B", rfl⟩)
    (by with_unfolding_all decide)
    (by with_unfolding_all decide)
    1
    ⟨"B", [150, 0, 0, 0, 0], zeroSlots, 0, 0, 0, 0, 0, 0⟩
    ⟨"A", [140, 0, 0, 0, 0], zeroSlots, 0, 0, 0, 0, 0, 0⟩
    [(1, [140, 0, 0, 0, 0])] [(1, [150, 0, 0, 0, 0])]
    (by with_unfolding_all decide)
    (by with_unfolding_all decide)
    (by with_unfolding_all decide)
    (by with_unfolding_all decide)

/-! ## C7/C2: the season path of `get_team_scores`, exception-free -/

/-- Exception-free version of `twgtStep`. -/
def twgtStepP (s : ℤ) (team : String) (acc : List (ℤ × List ℚ)) (r : Row) :
    List (ℤ × List ℚ) :=
  if ¬ cellEqInt r.season s then acc
  else if ¬ cellTruthy r.team then acc
  else
    match r.team with
    | Cell.str t =>
      if pyStrip t ≠ team then acc
      else if isSubCell r.subCell then acc
      else
        let wn := safeInt r.week 0
        if 0 < wn then
          aadjust (aensure acc wn zeroSlots) wn (fun tt => addSlots tt (slotContrib r))
        else acc
    | _ => acc

/-- Exception-free version of `oppScanStep`. -/
def oppScanStepP (s : ℤ) (opp : String) (w : ℤ) (acc : List ℚ) (r : Row) :
    List ℚ :=
  if ¬ cellEqInt r.season s then acc
  else if ¬ cellTruthy r.team then acc
  else
    match r.team with
    | Cell.str t =>
      if pyStrip t ≠ opp then acc
      else if safeInt r.week 0 ≠ w then acc
      else if isSubCell r.subCell then acc
      else addSlots acc (slotContrib r)
    | _ => acc

/-- Exception-free version of `tsCmpEntry`. -/
def tsCmpEntryP (rs : List Row) (s : ℤ) (teamKeys : List String)
    (twgt : List (ℤ × List ℚ)) (acc : WLT × ℚ) (e : ℤ × TWT) : WLT × ℚ :=
  match alookup twgt e.1 with
  | none => acc
  | some tg =>
    match e.2.oppName with
    | none => acc
    | some opn =>
      if opn = "" then acc
      else
        match teamKeys.find? (fun k => nameMatch opn k) with
        | some oppKey => cmpAccum acc tg (rs.foldl (oppScanStepP s oppKey e.1) zeroSlots)
        | none => cmpAccum acc tg zeroSlots

theorem twgtStep_eq_pure (s : ℤ) (team : String) (acc : List (ℤ × List ℚ))
    (r : Row) (h : cellEqInt r.season s = true → cellTruthy r.team = true →
      ∃ t, r.team = Cell.str t) :
    twgtStep s team acc r = Except.ok (twgtStepP s team acc r) := by
  by_cases h1 : (cellEqInt r.season s : Bool) = true
  · by_cases h2 : (cellTruthy r.team : Bool) = true
    · rcases h h1 h2 with ⟨t, ht⟩
      rw [ht] at h2
      by_cases h4 : pyStrip t ≠ team
      · simp [twgtStep, twgtStepP, h1, h2, ht, cellStrip, h4, Except.bind,
          except_bind_ok]
        rfl
      · have h4' : pyStrip t = team := not_not.mp h4
        by_cases h3 : (isSubCell r.subCell : Bool) = true
        · simp [twgtStep, twgtStepP, h1, h2, ht, cellStrip, h4', h3,
            Except.bind, except_bind_ok]
        · by_cases hw : 0 < safeInt r.week 0
          · simp [twgtStep, twgtStepP, h1, h2, eq_false_of_ne_true h3, ht,
              cellStrip, h4', hw, Except.bind, except_bind_ok]
            rfl
          · simp [twgtStep, twgtStepP, h1, h2, eq_false_of_ne_true h3, ht,
              cellStrip, h4', hw, Except.bind, except_bind_ok]
    · simp [twgtStep, twgtStepP, h1, eq_false_of_ne_true h2]
      rfl
  · simp [twgtStep, twgtStepP, eq_false_of_ne_true h1]
    rfl

theorem oppScanStep_eq_pure (s : ℤ) (opp : String) (w : ℤ) (acc : List ℚ)
    (r : Row) (h : cellEqInt r.season s = true → cellTruthy r.team = true →
      ∃ t, r.team = Cell.str t) :
    oppScanStep s opp w acc r = Except.ok (oppScanStepP s opp w acc r) := by
  by_cases h1 : (cellEqInt r.season s : Bool) = true
  · by_cases h2 : (cellTruthy r.team : Bool) = true
    · rcases h h1 h2 with ⟨t, ht⟩
      rw [ht] at h2
      by_cases h4 : pyStrip t ≠ opp
      · simp [oppScanStep, oppScanStepP, h1, h2, ht, cellStrip, h4, Except.bind,
          except_bind_ok]
        rfl
      · have h4' : pyStrip t = opp := not_not.mp h4
        by_cases h5 : safeInt r.week 0 ≠ w
        · simp [oppScanStep, oppScanStepP, h1, h2, ht, cellStrip, h4', h5,
            Except.bind, except_bind_ok]
        · have h5' : safeInt r.week 0 = w := not_not.mp h5
          by_cases h3 : (isSubCell r.subCell : Bool) = true
          · simp [oppScanStep, oppScanStepP, h1, h2, ht, cellStrip, h4', h5', h3,
              Except.bind, except_bind_ok]
          · simp [oppScanStep, oppScanStepP, h1, h2, eq_false_of_ne_true h3, ht,
              cellStrip, h4', h5', Except.bind, except_bind_ok]
            rfl
    · simp [oppScanStep, oppScanStepP, h1, eq_false_of_ne_true h2]
      rfl
  · simp [oppScanStep, oppScanStepP, eq_false_of_ne_true h1]
    rfl

theorem tsCmpEntry_eq_pure (rs : List Row) (s : ℤ) (teamKeys : List String)
    (twgt : List (ℤ × List ℚ)) (hsafe : stripSafe rs s) (acc : WLT × ℚ)
    (e : ℤ × TWT) :
    tsCmpEntry rs s teamKeys twgt acc e
      = Except.ok (tsCmpEntryP rs s teamKeys twgt acc e) := by
  unfold tsCmpEntry tsCmpEntryP
  cases htg : alookup twgt e.1 with
  | none => rfl
  | some tg =>
    cases hop : e.2.oppName with
    | none => rfl
    | some opn =>
      dsimp only
      by_cases he : opn = ""
      · rw [if_pos he, if_pos he]
        rfl
      · rw [if_neg he, if_neg he]
        cases hfind : teamKeys.find? (fun k => nameMatch opn k) with
        | none => rfl
        | some oppKey =>
          have hog := foldlM_eq_pure (oppScanStep s oppKey e.1) (oppScanStepP s oppKey e.1)
            rs (fun b r' hr' => oppScanStep_eq_pure s oppKey e.1 b r'
              (fun ha hb => hsafe r' hr' ha hb)) zeroSlots
          dsimp only
          rw [hog, except_bind_ok]
          rfl

/-- The `TeamResult` the per-team loop builds for one `team_data` entry
(all-teams season query), exception-free. -/
def tsTeamResultP (rs : List Row) (s : ℤ) (teamData : List (String × TDData))
    (kv : String × TDData) : TeamResult :=
  let data := kv.2
  let pAvgs := data.players.foldl (fun a p =>
      if p.2 ≠ [] then a ++ [p.2.sum / (p.2.length : ℚ)] else a) []
  let avgPerGame : ℚ := if pAvgs ≠ [] then pAvgs.sum / (pAvgs.length : ℚ) else 0
  let totalPins : ℚ := data.weeklyTotals.foldl (fun a w => a + w.2.pins) 0
  let twgt := rs.foldl (twgtStepP s kv.1) []
  let cmp := data.weeklyTotals.foldl
      (tsCmpEntryP rs s (teamData.map (·.1)) twgt) (⟨0, 0, 0⟩, 0)
  let pdict := data.players.foldl (fun a p =>
      if p.2 ≠ [] then a ++ [(p.1, pyRound2 (p.2.sum / (p.2.length : ℚ)))] else a) []
  ⟨cmp.1.wins, cmp.1.losses, cmp.1.ties, truncQ totalPins, truncQ cmp.2,
   pyRound2 avgPerGame, pdict⟩

theorem tsTeamStep_eq_pure_all (rs : List Row) (s : ℤ)
    (teamData : List (String × TDData)) (hsafe : stripSafe rs s)
    (res : List (String × TeamResult)) (kv : String × TDData) :
    tsTeamStep rs s none none teamData (Sum.inl res) kv
      = Except.ok (Sum.inl (res ++ [(kv.1, tsTeamResultP rs s teamData kv)])) := by
  unfold tsTeamStep
  dsimp only
  have h1 := foldlM_eq_pure (twgtStep s kv.1) (twgtStepP s kv.1) rs
    (fun b r' hr' => twgtStep_eq_pure s kv.1 b r' (fun ha hb => hsafe r' hr' ha hb)) []
  rw [h1, except_bind_ok]
  have h2 := foldlM_eq_pure
    (tsCmpEntry rs s (teamData.map (·.1)) (rs.foldl (twgtStepP s kv.1) []))
    (tsCmpEntryP rs s (teamData.map (·.1)) (rs.foldl (twgtStepP s kv.1) []))
    kv.2.weeklyTotals
    (fun b e _ => tsCmpEntry_eq_pure rs s _ _ hsafe b e) (⟨0, 0, 0⟩, 0)
  rw [h2, except_bind_ok]
  rfl

theorem tsTeamFold_all (rs : List Row) (s : ℤ)
    (teamData : List (String × TDData)) (hsafe : stripSafe rs s) :
    ∀ (l : List (String × TDData)) (res : List (String × TeamResult)),
      l.foldlM (tsTeamStep rs s none none teamData) (Sum.inl res)
        = Except.ok (Sum.inl
            (res ++ l.map (fun kv => (kv.1, tsTeamResultP rs s teamData kv)))) := by
  intro l
  induction l with
  | nil => intro res; simp; rfl
  | cons kv t ih =>
    intro res
    rw [List.foldlM_cons, tsTeamStep_eq_pure_all rs s teamData hsafe res kv,
      except_bind_ok, ih]
    simp

/-- The all-teams season query of `get_team_scores`, exception-free under
`stripSafe`: one `TeamResult` per `team_data` key, in insertion order. -/
theorem getTeamScores_ok (rs : List Row) (s : ℤ) (hsafe : stripSafe rs s) :
    getTeamScores rs s none none
      = Except.ok (TSOut.allTeams ((rs.foldl (tsStep s none) []).map
          (fun kv => (kv.1, tsTeamResultP rs s (rs.foldl (tsStep s none) []) kv)))) := by
  unfold getTeamScores
  dsimp only
  rw [tsTeamFold_all rs s _ hsafe _ [], except_bind_ok]
  rfl

/-- A row whose games the first scan of `get_team_scores` appends to
player `p` of team `t` (season `s`, optional week filter `wf`): matching
season and week, non-empty string team cell stripping to `t`, neither
substitute nor absent, non-empty string player cell stripping to `p`. -/
def tpRowFor (s : ℤ) (wf : Option ℤ) (t p : String) (r : Row) : Bool :=
  cellEqInt r.season s && !(weekSkip wf r) &&
  (match r.team with
   | Cell.str tt => !(decide (tt = "")) && (pyStrip tt == t)
   | _ => false) &&
  !(isSubCell r.subCell) && !(isAbsentCell r.absentCell) &&
  (match r.player with
   | Cell.str ps => !(decide (ps = "")) && (pyStrip ps == p)
   | _ => false)

/-- The games `get_team_scores` files under team `t`, player `p`:
the played games of the contributing rows, in row order. -/
def teamPlayerGames (rs : List Row) (s : ℤ) (wf : Option ℤ) (t p : String) :
    List ℚ :=
  (rs.filter (tpRowFor s wf t p)).flatMap playedGames

/-- The games list filed under team `t`, player `p` of a `team_data`
accumulator (empty when either key is missing). -/
def teamPlayerScores (acc : List (String × TDData)) (t p : String) : List ℚ :=
  match alookup acc t with
  | some d =>
    match alookup d.players p with
    | some gs => gs
    | none => []
  | none => []

theorem tPS_aensure (acc : List (String × TDData)) (team t p : String) :
    teamPlayerScores (aensure acc team ⟨[], []⟩) t p = teamPlayerScores acc t p := by
  unfold teamPlayerScores
  by_cases he : (team == t) = true
  · have ht : team = t := eq_of_beq he
    subst ht
    rw [alookup_aensure_same]
    cases h : alookup acc team with
    | none => rfl
    | some td => rfl
  · rw [alookup_aensure_ne _ _ _ _ (eq_false_of_ne_true he)]

theorem tPS_adjust_preserve (acc : List (String × TDData)) (team t p : String)
    (f : TDData → TDData) (hf : ∀ td, (f td).players = td.players) :
    teamPlayerScores (aadjust acc team f) t p = teamPlayerScores acc t p := by
  unfold teamPlayerScores
  rw [alookup_aadjust]
  cases h : alookup acc t with
  | none => rfl
  | some td =>
    simp only [Option.map_some']
    by_cases he : (team == t) = true
    · rw [if_pos he, hf]
    · rw [if_neg (by simp [he])]

theorem tPS_adjust_ne (acc : List (String × TDData)) (team t p : String)
    (f : TDData → TDData) (hne : (team == t) = false) :
    teamPlayerScores (aadjust acc team f) t p = teamPlayerScores acc t p := by
  unfold teamPlayerScores
  rw [alookup_aadjust_ne _ _ _ _ hne]

theorem tPS_player_update_same (acc : List (String × TDData)) (t p : String)
    (gs : List ℚ) :
    teamPlayerScores (aadjust (aensure acc t ⟨[], []⟩) t (fun td =>
        { td with players := aadjust (aensure td.players p []) p (· ++ gs) })) t p
      = teamPlayerScores acc t p ++ gs := by
  unfold teamPlayerScores
  rw [alookup_aadjust_aensure_same]
  dsimp only
  rw [alookup_aadjust_aensure_same]
  cases h : alookup acc t with
  | none => rfl
  | some td =>
    dsimp only [Option.getD_some]
    cases hp : alookup td.players p with
    | none => rfl
    | some gs0 => rfl

theorem tPS_player_update_ne (acc : List (String × TDData)) (t p p' : String)
    (gs : List ℚ) (hne : (p' == p) = false) :
    teamPlayerScores (aadjust (aensure acc t ⟨[], []⟩) t (fun td =>
        { td with players := aadjust (aensure td.players p' []) p' (· ++ gs) })) t p
      = teamPlayerScores acc t p := by
  unfold teamPlayerScores
  rw [alookup_aadjust_aensure_same]
  dsimp only
  rw [alookup_aadjust_aensure_ne _ _ _ _ _ hne]
  cases h : alookup acc t with
  | none => rfl
  | some td => rfl

theorem tPS_ite_weekly (c1 c2 : Prop) [Decidable c1] [Decidable c2]
    (acc : List (String × TDData)) (k t p : String)
    (g : TDData → List (ℤ × TWT)) :
    teamPlayerScores (if c1 then
        (if c2 then aadjust acc k (fun td =>
          { players := td.players, weeklyTotals := g td }) else acc)
      else acc) t p = teamPlayerScores acc t p := by
  split
  · split
    · exact tPS_adjust_preserve acc k t p _ (fun td => rfl)
    · rfl
  · rfl

theorem tsStep_teamPlayerScores (s : ℤ) (wf : Option ℤ)
    (acc : List (String × TDData)) (r : Row) (t p : String) :
    teamPlayerScores (tsStep s wf acc r) t p
      = teamPlayerScores acc t p
        ++ (if tpRowFor s wf t p r then playedGames r else []) := by
  unfold tsStep tpRowFor
  by_cases h1 : (cellEqInt r.season s : Bool) = true
  · by_cases h2 : (weekSkip wf r : Bool) = true
    · rw [if_neg (by simp [h1]), if_pos h2]
      simp [h2]
    · rw [if_neg (by simp [h1]), if_neg (by simp [h2])]
      have h2f : (weekSkip wf r : Bool) = false := eq_false_of_ne_true h2
      cases hteam : r.team with
      | blank => simp
      | num q => simp
      | boolv b => simp
      | str t0 =>
        dsimp only
        by_cases h3 : t0 = ""
        · rw [if_pos h3]
          simp [h3]
        · rw [if_neg h3]
          rw [tPS_ite_weekly]
          by_cases hteq : (pyStrip t0 == t) = true
          · have ht : pyStrip t0 = t := eq_of_beq hteq
            by_cases hsa : ¬ (isSubCell r.subCell : Bool) = true
                ∧ ¬ (isAbsentCell r.absentCell : Bool) = true
            · rw [if_pos hsa]
              cases hp : r.player with
              | blank =>
                dsimp only
                rw [ht, tPS_aensure]
                simp
              | num q =>
                dsimp only
                rw [ht, tPS_aensure]
                simp
              | boolv b =>
                dsimp only
                rw [ht, tPS_aensure]
                simp
              | str ps =>
                dsimp only
                by_cases hps : ps = ""
                · rw [if_pos hps, ht, tPS_aensure]
                  simp [hps]
                · rw [if_neg hps]
                  by_cases hpeq : (pyStrip ps == p) = true
                  · have hpe : pyStrip ps = p := eq_of_beq hpeq
                    rw [ht, hpe, tPS_player_update_same]
                    have hsf : (isSubCell r.subCell : Bool) = false :=
                      eq_false_of_ne_true hsa.1
                    have haf : (isAbsentCell r.absentCell : Bool) = false :=
                      eq_false_of_ne_true hsa.2
                    simp [h1, h2f, h3, hteq, hsf, haf, hps, hpeq]
                  · rw [ht, tPS_player_update_ne _ _ _ _ _
                        (eq_false_of_ne_true hpeq)]
                    simp [eq_false_of_ne_true hpeq]
            · rw [if_neg hsa]
              rw [ht, tPS_aensure]
              rcases not_and_or.mp hsa with hs | ha
              · have hst : (isSubCell r.subCell : Bool) = true := not_not.mp hs
                simp [hst]
              · have hat : (isAbsentCell r.absentCell : Bool) = true := not_not.mp ha
                simp [hat]
          · have htf : (pyStrip t0 == t) = false := eq_false_of_ne_true hteq
            simp only [htf, Bool.and_false, Bool.false_and, Bool.false_eq_true,
              if_false, List.append_nil]
            split
            all_goals try split
            all_goals try split
            all_goals first
            | (rw [tPS_adjust_ne _ _ _ _ _ htf, tPS_aensure])
            | (rw [tPS_aensure])
  · rw [if_pos (by simp [h1])]
    simp [eq_false_of_ne_true h1]

theorem tsFold_teamPlayerScores (s : ℤ) (wf : Option ℤ) (rs : List Row) :
    ∀ (acc : List (String × TDData)) (t p : String),
      teamPlayerScores (rs.foldl (tsStep s wf) acc) t p
        = teamPlayerScores acc t p ++ teamPlayerGames rs s wf t p := by
  induction rs with
  | nil => intro acc t p; simp [teamPlayerGames]
  | cons r l ih =>
    intro acc t p
    rw [List.foldl_cons, ih, tsStep_teamPlayerScores, List.append_assoc]
    congr 1
    unfold teamPlayerGames
    rw [List.filter_cons]
    by_cases hc : (tpRowFor s wf t p r) = true
    · simp [hc]
    · simp [eq_false_of_ne_true hc]

theorem alookup_map_keyed {K β γ : Type} [BEq K] [LawfulBEq K]
    (l : List (K × β)) (f : K → β → γ) (k : K) :
    alookup (l.map (fun kv => (kv.1, f kv.1 kv.2))) k
      = (alookup l k).map (f k) := by
  induction l with
  | nil => rfl
  | cons kv t ih =>
    rw [List.map_cons, alookup_cons, alookup_cons]
    by_cases he : (kv.1 == k) = true
    · rw [if_pos he, if_pos he]
      have hk : kv.1 = k := eq_of_beq he
      rw [hk]
      rfl
    · rw [if_neg he, if_neg he]
      exact ih

/-- The mean of the per-player averages of a team's player map, over the
players with at least one game (the spec's team-average rule, scoped to
one team's games). -/
def meanOfPlayerAvgs (ps : List (String × List ℚ)) : ℚ :=
  let avgs := (ps.filter (fun q => decide (q.2 ≠ []))).map
    (fun q => q.2.sum / (q.2.length : ℚ))
  if avgs = [] then 0 else avgs.sum / (avgs.length : ℚ)

theorem foldl_append_filter_map {α γ : Type} (c : α → Prop) [DecidablePred c]
    (g : α → γ) (l : List α) :
    ∀ init : List γ,
      l.foldl (fun a x => if c x then a ++ [g x] else a) init
        = init ++ (l.filter (fun x => decide (c x))).map g := by
  induction l with
  | nil => intro init; simp
  | cons x t ih =>
    intro init
    rw [List.foldl_cons, List.filter_cons]
    by_cases hc : c x
    · rw [if_pos hc, ih]
      simp [hc]
    · rw [if_neg hc, ih]
      simp [hc]

/-- **C7.** Corrected: for every team of the all-teams season query, the
reported `avg_per_game` is the 2-decimal rounding of the arithmetic mean
of the *team-scoped* player averages — each player's average over the
games recorded for this very team (substitute and absent rows excluded) —
and each such games list collects exactly the team's own rows, so a
player bowling for several teams contributes a different average to each,
in general different from the Player Aggregator's season-wide average. -/
theorem team_avg_is_mean_of_team_scoped_player_averages
    (rs : List Row) (s : ℤ) (hsafe : stripSafe rs s)
    (t : String) (td' : TDData)
    (ht : alookup (rs.foldl (tsStep s none) []) t = some td') :
    ∃ out, getTeamScores rs s none none = Except.ok (TSOut.allTeams out) ∧
      ∃ tr, alookup out t = some tr ∧
        tr.avgPerGame = pyRound2 (meanOfPlayerAvgs td'.players) ∧
        ∀ p gs, alookup td'.players p = some gs →
          gs = teamPlayerGames rs s none t p := by
  refine ⟨_, getTeamScores_ok rs s hsafe, ?_⟩
  have hmap := alookup_map_keyed (rs.foldl (tsStep s none) [])
    (fun k v => tsTeamResultP rs s (rs.foldl (tsStep s none) []) (k, v)) t
  rw [ht] at hmap
  refine ⟨tsTeamResultP rs s (rs.foldl (tsStep s none) []) (t, td'), hmap, ?_, ?_⟩
  · show pyRound2 _ = pyRound2 (meanOfPlayerAvgs td'.players)
    congr 1
    rw [meanOfPlayerAvgs]
    rw [foldl_append_filter_map (fun q : String × List ℚ => q.2 ≠ [])
      (fun q : String × List ℚ => q.2.sum / (q.2.length : ℚ)) td'.players []]
    rw [List.nil_append]
    by_cases he : ((td'.players.filter (fun q => decide (q.2 ≠ []))).map
        (fun q => q.2.sum / (q.2.length : ℚ))) = []
    · rw [if_neg (not_not_intro he), if_pos he]
    · rw [if_pos he, if_neg he]
  · intro p gs hgs
    have hface := tsFold_teamPlayerScores s none rs [] t p
    have hval : teamPlayerScores (rs.foldl (tsStep s none) []) t p = gs := by
      unfold teamPlayerScores
      rw [ht]
      dsimp only
      rw [hgs]
    rw [hval] at hface
    have h0 : teamPlayerScores [] t p = [] := rfl
    rw [h0, List.nil_append] at hface
    exact hface

/-- C7 rows: player `P` bowls 100 for team `T` and 200 for team `U` in
the same season and week. -/
def rsC7 : List Row :=
  [ sampleRow "T" "P" 1 1 [100] false false none
  , sampleRow "U" "P" 1 1 [200] false false none ]

/-- **C7, counterexample.** Against the frozen claim: team `T`'s
`avg_per_game` is 100, the average of `P`'s games *for `T`* only, while
the Player Aggregator's season average for `P` is 150 (mean of 100 and
200 across both teams).  So `avg_per_game` is not the mean of the team's
players' season averages. -/
theorem team_avg_not_mean_of_season_averages :
    (∃ trT trU,
      getTeamScores rsC7 1 none none
        = Except.ok (TSOut.allTeams [("T", trT), ("U", trU)]) ∧
      trT.avgPerGame = 100 ∧ trU.avgPerGame = 200 ∧
      trT.players = [("P", 100)]) ∧
    includedGames rsC7 1 none "P" = [100, 200] ∧
    pyRound2 ((includedGames rsC7 1 none "P").sum /
      ((includedGames rsC7 1 none "P").length : ℚ)) = 150 ∧
    (100 : ℚ) ≠ 150 := by
  refine ⟨⟨⟨0, 0, 0, 100, 0, 100, [("P", 100)]⟩,
           ⟨0, 0, 0, 200, 0, 200, [("P", 200)]⟩, ?_, ?_, ?_, ?_⟩, ?_, ?_, ?_⟩
  · with_unfolding_all decide
  · rfl
  · rfl
  · rfl
  · with_unfolding_all decide
  · with_unfolding_all decide
  · with_unfolding_all decide

theorem team_avg_is_mean_of_team_scoped_player_averages_witness :
    ∃ out, getTeamScores rsC7 1 none none = Except.ok (TSOut.allTeams out) ∧
      ∃ tr, alookup out "T" = some tr ∧
        tr.avgPerGame
          = pyRound2 (meanOfPlayerAvgs (⟨[("P", [100])], [(1, ⟨100, none⟩)]⟩ : TDData).players) ∧
        ∀ p gs, alookup (⟨[("P", [100])], [(1, ⟨100, none⟩)]⟩ : TDData).players p = some gs →
          gs = teamPlayerGames rsC7 1 none "T" p :=
  team_avg_is_mean_of_team_scoped_player_averages rsC7 1
    (by intro r hr
        fin_cases hr
        · exact fun _ _ => ⟨"T", rfl⟩
        · exact fun _ _ => ⟨"U", rfl⟩)
    "T" ⟨[("P", [100])], [(1, ⟨100, none⟩)]⟩
    (by with_unfolding_all decide)

/-- C2 rows: one well-formed row for team `A`, plus a row whose team cell
holds the number `5` — truthy but not a string. -/
def rsC2 : List Row :=
  [ sampleRow "A" "P1" 1 1 [150] false false none
  , { sampleRow "B" "P2" 1 1 [140] false false none with team := Cell.num 5 } ]

/-- **C2.** Against the claim that every engine query is total: with a
truthy non-string team cell in the sheet, `get_team_scores` (season path,
`team_weekly_game_totals` scan) and `get_team_weekly_summary` (`all_teams`
scan) both reach a bare `row_team.strip()` and raise `AttributeError` to
the caller — no `try`/`except` encloses these scans, so no structured
`{error: …}` value is produced. -/
theorem team_handlers_raise_on_nonstring_team_cell :
    getTeamScores rsC2 1 none none
      = Except.error "AttributeError: object has no attribute strip" ∧
    getTeamWeeklySummary rsC2 1 "A"
      = Except.error "AttributeError: object has no attribute strip" := by
  constructor
  · with_unfolding_all decide
  · with_unfolding_all decide
